import Mathlib

/-!
Verification of `flocker.node._config` (configuration parsing and validation).

The Python module is shallowly embedded: decoded YAML values become the
`PyVal` inductive, Python dictionaries become association lists with string
keys (Python dictionaries have unique keys; where an operation's behaviour
could differ on a duplicated key the theorems carry a `Nodup` hypothesis),
exceptions become an explicit `Except PyErr` result, and in-place mutation of
the caller's mapping (the native front end pops keys) becomes explicit state
passing: the parser returns the residual mapping next to its result.

The domain model (`Application`, `Port`, `Link`, ...) lives in the module
`flocker.node._model`, which is not part of the studied sources; those value
classes are modelled from the spec's data-model section as plain immutable
structures with structural equality, and the unordered `frozenset` collections
become `Finset`s.
-/

/-- A decoded YAML (Python) value: the shapes the configuration code handles.
Python 2's `str`/`unicode` split is collapsed into one string constructor;
no claim distinguishes the two. -/
inductive PyVal : Type where
  | pyStr (s : String)
  | pyInt (n : Int)
  | pyList (xs : List PyVal)
  | pyDict (entries : List (String × PyVal))
  | pyNone

/-- A Python dictionary with string keys, as an insertion-ordered association
list (Python dictionaries cannot hold a key twice). -/
abbrev Dict := List (String × PyVal)

/-- The Python type name of a value, as `type(value).__name__` renders it. -/
def PyVal.typeName : PyVal → String
  | .pyStr _ => "str"
  | .pyInt _ => "int"
  | .pyList _ => "list"
  | .pyDict _ => "dict"
  | .pyNone => "NoneType"

/-- Whether the value is a Python string (`isinstance(v, (str, unicode))`). -/
def PyVal.isStr : PyVal → Bool
  | .pyStr _ => true
  | _ => false

/-- Whether the value is a Python int (`isinstance(v, int)`). -/
def PyVal.isInt : PyVal → Bool
  | .pyInt _ => true
  | _ => false

/-- The string held by a `pyStr`; only applied to values known to be strings. -/
def PyVal.asStr : PyVal → String
  | .pyStr s => s
  | _ => ""

/-- The integer held by a `pyInt`; only applied to values known to be ints. -/
def PyVal.asInt : PyVal → Int
  | .pyInt n => n
  | _ => 0

/-- Python truthiness of a decoded value (`if value:`): `None`, `0`, the empty
string, empty list and empty dictionary are falsy. -/
def PyVal.truthy : PyVal → Bool
  | .pyStr s => !s.isEmpty
  | .pyInt n => n != 0
  | .pyList xs => !xs.isEmpty
  | .pyDict d => !d.isEmpty
  | .pyNone => false

/-- `str(value)`: the rendering Python interpolates into error messages. For
the container shapes only the claims' concrete cases matter; a crude best
effort rendering is enough because no theorem inspects it structurally. -/
def pyShow : PyVal → String
  | .pyStr s => s
  | .pyInt n => toString n
  | .pyList _ => "[...]"
  | .pyDict _ => "{...}"
  | .pyNone => "None"

/-- Association-list lookup: `d[k]` / `d.get(k)` on a Python dictionary. -/
def alookup {α : Type} : List (String × α) → String → Option α
  | [], _ => none
  | (k', v) :: rest, k => if k' = k then some v else alookup rest k

/-- `k in d` on a Python dictionary. -/
def dcontains (d : Dict) (k : String) : Bool :=
  (alookup d k).isSome

/-- Removal of a key: what `d.pop(k)` leaves behind. -/
def dremove (d : Dict) (k : String) : Dict :=
  d.filter (fun e => e.1 ≠ k)

/-- `d.pop(k)`: the value found (if any) next to the remaining dictionary. -/
def dpop (d : Dict) (k : String) : Option PyVal × Dict :=
  (alookup d k, dremove d k)

/-- `d[k] = v` on a Python dictionary: replace in place when the key exists,
append otherwise. -/
def dinsert : Dict → String → PyVal → Dict
  | [], k, v => [(k, v)]
  | (k', v') :: rest, k, v =>
      if k' = k then (k, v) :: rest else (k', v') :: dinsert rest k v

/-- Code-point lexicographic comparison of character runs: how Python
orders the strings that `sorted(...)` sees. Written as structural recursion
so that concrete runs reduce. -/
def charListLe : List Char → List Char → Bool
  | [], _ => true
  | _ :: _, [] => false
  | a :: as, b :: bs =>
      if a.toNat < b.toNat then true
      else if b.toNat < a.toNat then false
      else charListLe as bs

/-- Code-point comparison of two strings. -/
def strLe (a b : String) : Bool :=
  charListLe a.data b.data

/-- Insertion of a string into a sorted list (ascending). -/
def insertStr (s : String) : List String → List String
  | [] => [s]
  | t :: ts => if strLe s t then s :: t :: ts else t :: insertStr s ts

/-- `sorted(keys)`: insertion sort on strings. -/
def sortStrings : List String → List String
  | [] => []
  | s :: ss => insertStr s (sortStrings ss)

/-- `', '.join(keys)`. -/
def joinComma (l : List String) : String :=
  String.intercalate ", " l

/-- The accumulator loop over decimal digits. -/
def digitsValGo : List Char → Nat → Option Nat
  | [], acc => some acc
  | c :: rest, acc =>
      if c.isDigit then digitsValGo rest (10 * acc + (c.toNat - 48)) else none

/-- The value of a nonempty all-digit character run. -/
def digitsVal : List Char → Option Nat
  | [] => none
  | cs => digitsValGo cs 0

/-- `int(s)` on a decimal string: an optional sign then decimal digits; on
anything else Python raises `ValueError` (modelled as none). Written as
structural recursion over the characters so that concrete runs reduce. -/
def pyIntOfString (s : String) : Option Int :=
  match s.data with
  | '-' :: rest => (digitsVal rest).map (fun n => -(n : Int))
  | '+' :: rest => (digitsVal rest).map (fun n => (n : Int))
  | cs => (digitsVal cs).map (fun n => (n : Int))

/-- The chunk accumulator of `pySplit`. -/
def pySplitGo (sep : Char) : List Char → List Char → List String
  | [], acc => [String.mk acc.reverse]
  | c :: rest, acc =>
      if c = sep then String.mk acc.reverse :: pySplitGo sep rest []
      else pySplitGo sep rest (c :: acc)

/-- Python's `s.split(sep)` for a one-character separator: empty chunks are
kept and the empty string splits to one empty chunk. Written as structural
recursion over the characters so that concrete runs reduce. -/
def pySplit (sep : Char) (s : String) : List String :=
  pySplitGo sep s.data []

/-- `os.path.isabs` on a POSIX path: whether it starts with a slash. -/
def pyIsAbs (s : String) : Bool :=
  match s.data with
  | '/' :: _ => true
  | _ => false

/-- The exception kinds the module can let escape. `valueError` is the
internal field-validator signal (`ValueError`); the parsers catch it at the
call sites and re-wrap it into `configError` (`ConfigurationError`), the only
error kind the module means to surface. `keyError` models an uncaught
`KeyError`, and the remaining constructors model the built-in exceptions
Python raises when an operation is applied to a value of the wrong shape. -/
inductive PyErr : Type where
  | configError (message : String)
  | valueError (message : String)
  | keyError (key : String)
  | attributeError (message : String)
  | indexError (message : String)
  | typeError (message : String)
deriving DecidableEq, Repr

/-- Modelled from the spec: `Port` from the missing `flocker.node._model`
module, a host-to-container port mapping with structural equality. -/
structure Port : Type where
  internal_port : Int
  external_port : Int
deriving DecidableEq, Repr

/-- Modelled from the spec: `Link` from the missing `flocker.node._model`
module, one resolved network link. -/
structure Link : Type where
  local_port : Int
  remote_port : Int
  alias' : String
deriving DecidableEq, Repr

/-- Modelled from the spec: `DockerImage` from the missing
`flocker.node._model` module, a repository plus tag. -/
structure DockerImage : Type where
  repository : String
  tag : String
deriving DecidableEq, Repr

/-- Modelled from the spec: the external image-reference parser
(`DockerImage.from_string`; the spec keeps it out of scope, interface only).
It splits a reference into repository and tag, the tag defaulting to
`latest`. -/
def dockerImageFromString (s : String) : DockerImage :=
  match pySplit ':' s with
  | [repo, tag] => ⟨repo, tag⟩
  | _ => ⟨s, "latest"⟩

/-- Modelled from the spec: `AttachedVolume` from the missing
`flocker.node._model` module. The mountpoint is an absolute path or none
(`FilePath` is modelled by its path string; in lenient mode the native
parser builds a volume with an undefined mountpoint). -/
structure AttachedVolume : Type where
  name : String
  mountpoint : Option String
deriving DecidableEq, Repr

/-- Modelled from the spec: `Application` from the missing
`flocker.node._model` module. The environment is a set of key/value pairs or
none (the spec's data model; a falsy non-`None` Python value that
`_parse_environment_config` passes through unchanged is collapsed to none,
which no claim observes). -/
structure Application : Type where
  name : String
  image : DockerImage
  ports : Finset Port
  volume : Option AttachedVolume
  links : Finset Link
  environment : Option (Finset (String × String))
deriving DecidableEq

/-- Modelled from the spec: `Node` from the missing `flocker.node._model`
module. -/
structure Node : Type where
  hostname : String
  applications : Finset Application
deriving DecidableEq

/-- Modelled from the spec: `Deployment` from the missing
`flocker.node._model` module. -/
structure Deployment : Type where
  nodes : Finset Node
deriving DecidableEq

/-- The shared frame of the module's per-application error messages:
`"Application '{name}' has a config error. "`. -/
def appErrMsg (application_name : String) : String :=
  "Application '" ++ application_name ++ "' has a config error. "

/-- The message `_check_type` raises:
`"Application '{name}' has a config error. {description}; got type '{t}'."`. -/
def check_type_msg (application_name description typeName : String) : String :=
  appErrMsg application_name ++ description ++ "; got type '" ++ typeName ++ "'."

/-- `_check_type(value, types, description, application_name)`: raises
`ConfigurationError` when the predicate rejects the value's type. -/
def check_type (ok : Bool) (v : PyVal) (description application_name : String) :
    Except PyErr Unit :=
  if ok then .ok () else
    .error (.configError (check_type_msg application_name description v.typeName))

/-- `FigConfiguration._count_identifier_keys`: how many of the identifying
keys `image` and `build` the application definition holds
(`len({'image', 'build'} & set(config))`). -/
def count_identifier_keys (config : Dict) : Nat :=
  (((config.map Prod.fst).dedup).filter (fun k => k = "image" ∨ k = "build")).length

/-- The identifying-key count of one top-level entry's value as
`is_valid_format` sees it: a non-dictionary entry is skipped, which
coincides with a count of zero. -/
def identifier_count : PyVal → Nat
  | .pyDict d => count_identifier_keys d
  | _ => 0

/-- The message `is_valid_format` raises on an entry holding both
identifying keys. -/
def figBothKeysMsg (app_name : String) : String :=
  appErrMsg app_name ++ "Must specify either 'build' or 'image'; found both."

/-- The loop of `FigConfiguration.is_valid_format`, the running `_validated`
flag made explicit. The scan is not short-circuited: an ambiguous entry
raises wherever it sits, even after the dialect is already determined. -/
def ivf_go : Dict → Bool → Except PyErr Bool
  | [], validated => .ok validated
  | (application_name, config) :: rest, validated =>
    match config with
    | .pyDict c =>
        if count_identifier_keys c = 1 then ivf_go rest true
        else if 1 < count_identifier_keys c then
          .error (.configError (figBothKeysMsg application_name))
        else ivf_go rest validated
    | _ => ivf_go rest validated

/-- `FigConfiguration.is_valid_format`: detect whether the supplied
application configuration is fig-format; raise on an ambiguous entry. -/
def is_valid_format (cfg : Dict) : Except PyErr Bool :=
  ivf_go cfg false

/-- The fig keys Flocker recognises but does not support
(`FigConfiguration._unsupported_keys`). -/
def figUnsupportedKeys : List String :=
  ["working_dir", "entrypoint", "user", "hostname", "domainname", "mem_limit",
   "privileged", "dns", "net", "volumes_from", "expose", "command"]

/-- The keys a fig service definition may hold
(`FigConfiguration._allowed_keys`). -/
def figAllowedKeys : List String :=
  ["image", "environment", "ports", "links", "volumes"]

/-- `FigConfiguration._validate_application_keys`: no invalid or unsupported
key may appear; raises `ValueError` (wrapped later) or, for the type check,
`ConfigurationError` directly. -/
def validate_application_keys (application : String) (config : PyVal) :
    Except PyErr Unit :=
  match config with
  | .pyDict c =>
      if count_identifier_keys c = 0 then
        .error (.valueError
          "Application configuration must contain either an 'image' or 'build' key.")
      else if dcontains c "build" then
        .error (.valueError "'build' is not supported yet; please specify 'image'.")
      else
        let present_keys := (c.map Prod.fst).dedup
        let invalid_keys := present_keys.filter (fun k => k ∉ figAllowedKeys)
        let present_unsupported_keys := present_keys.filter (fun k => k ∈ figUnsupportedKeys)
        if present_unsupported_keys ≠ [] then
          .error (.valueError ("Unsupported fig keys found: " ++
            joinComma (sortStrings present_unsupported_keys)))
        else if invalid_keys ≠ [] then
          .error (.valueError ("Unrecognised keys: " ++ joinComma invalid_keys))
        else .ok ()
  | v =>
      .error (.configError
        (check_type_msg application "Application configuration must be dictionary" v.typeName))

/-- The loop of `FigConfiguration._parse_app_environment`: every value must
be a string (the keys are strings by construction here). -/
def fig_env_go (application : String) : List (String × PyVal) →
    Except PyErr Unit
  | [] => .ok ()
  | (var, val) :: rest =>
      if val.isStr then fig_env_go application rest
      else
        .error (.configError (check_type_msg application
          ("'environment' value for '" ++ var ++ "' must be a string") val.typeName))

/-- `FigConfiguration._parse_app_environment`: validate the environment
mapping and return `frozenset(environment.items())`. -/
def parse_app_environment (application : String) (environment : PyVal) :
    Except PyErr (Finset (String × String)) :=
  match environment with
  | .pyDict env => do
      fig_env_go application env
      .ok ((env.map (fun kv => (kv.1, kv.2.asStr))).toFinset)
  | v =>
      .error (.configError
        (check_type_msg application "'environment' must be a dictionary" v.typeName))

/-- The message `_parse_app_volumes` raises on a non-string entry. -/
def figVolumesNonStrMsg (application typeName : String) : String :=
  appErrMsg application ++ "'volumes' values must be string; got type '" ++
    typeName ++ "'."

/-- The message `_parse_app_volumes` raises on more than one volume. -/
def figVolumesTooManyMsg (application : String) : String :=
  appErrMsg application ++ "Only one volume per application is supported at this time."

/-- `FigConfiguration._parse_app_volumes`: each entry must be a string, at
most one volume is supported, and the surviving entry is popped into an
`AttachedVolume` named after the application. `volumes.pop()` on an empty
list raises `IndexError`, which nothing catches. -/
def parse_app_volumes (application : String) (volumes : PyVal) :
    Except PyErr AttachedVolume :=
  match volumes with
  | .pyList vs =>
      match vs.find? (fun v => !v.isStr) with
      | some v => .error (.configError (figVolumesNonStrMsg application v.typeName))
      | none =>
          if 1 < vs.length then
            .error (.configError (figVolumesTooManyMsg application))
          else
            match vs.getLast? with
            | none => .error (.indexError "pop from empty list")
            | some v => .ok ⟨application, some v.asStr⟩
  | v =>
      .error (.configError
        (check_type_msg application "'volumes' must be a list" v.typeName))

/-- The message `_parse_app_ports` raises on an entry that does not split
into exactly a host and a container part. -/
def figPortsFormMsg (application : String) : String :=
  appErrMsg application ++
    "'ports' must be list of string values in the form of 'host_port:container_port'."

/-- The message `_parse_app_ports` raises when a side does not parse as an
integer. -/
def figPortsIntMsg (application port : String) : String :=
  appErrMsg application ++ "'ports' value '" ++ port ++
    "' could not be parsed in to integer values."

/-- The loop of `FigConfiguration._parse_app_ports`. A non-string entry hits
`port.split(':')` and raises `AttributeError`, which nothing catches. -/
def fig_ports_go (application : String) : List PyVal → Except PyErr (List Port)
  | [] => .ok []
  | port :: rest =>
      match port with
      | .pyStr s =>
          let parsed_ports := pySplit ':' s
          if parsed_ports.length ≠ 2 then
            .error (.configError (figPortsFormMsg application))
          else
            match pyIntOfString (parsed_ports.getD 0 ""),
                  pyIntOfString (parsed_ports.getD 1 "") with
            | some host_port, some container_port => do
                let r ← fig_ports_go application rest
                .ok (⟨container_port, host_port⟩ :: r)
            | _, _ => .error (.configError (figPortsIntMsg application s))
      | v =>
          .error (.attributeError
            ("'" ++ v.typeName ++ "' object has no attribute 'split'"))

/-- `FigConfiguration._parse_app_ports`: a list of `"host:container"`
strings becomes a list of `Port`s (internal = container side, external =
host side). -/
def parse_app_ports (application : String) (ports : PyVal) :
    Except PyErr (List Port) :=
  match ports with
  | .pyList ps => fig_ports_go application ps
  | v =>
      .error (.configError
        (check_type_msg application "'ports' must be a list" v.typeName))

/-- An entry of `FigConfiguration._application_links`: a link directive
recorded for the deferred second pass. -/
structure LinkDirective : Type where
  target_application : String
  alias' : String
deriving DecidableEq, Repr

/-- The per-entry computation of `_parse_app_links` (lines 364-368): the
target is the part before the first colon, the alias the second part when
the split yields exactly two parts and the bare target name otherwise. -/
def figLinkDirectiveOf (link : String) : LinkDirective :=
  let parsed_link := pySplit ':' link
  let local_link := parsed_link.headD ""
  let aliased_link :=
    if parsed_link.length = 2 then parsed_link.getD 1 local_link else local_link
  ⟨local_link, aliased_link⟩

/-- The message `_parse_app_links` raises on a non-string entry. -/
def figLinksFormMsg (application : String) : String :=
  appErrMsg application ++
    "'links' must be a list of application names with optional :alias."

/-- The message `_parse_app_links` raises on a target that is no key of the
configuration (the full directive string is interpolated both times). -/
def figLinkMissingMsg (application link : String) : String :=
  appErrMsg application ++ "'links' value '" ++ link ++
    "' could not be mapped to any application; application '" ++ link ++
    "' does not exist."

/-- The loop of `FigConfiguration._parse_app_links` over the entries. -/
def fig_links_go (names : List String) (application : String) :
    List PyVal → Except PyErr (List LinkDirective)
  | [] => .ok []
  | link :: rest =>
      match link with
      | .pyStr s =>
          let d := figLinkDirectiveOf s
          if d.target_application ∈ names then do
            let r ← fig_links_go names application rest
            .ok (d :: r)
          else .error (.configError (figLinkMissingMsg application s))
      | _ => .error (.configError (figLinksFormMsg application))

/-- `FigConfiguration._parse_app_links`: validate the links list and record
the directives for the deferred second pass. -/
def parse_app_links (names : List String) (application : String) (links : PyVal) :
    Except PyErr (List LinkDirective) :=
  match links with
  | .pyList ls => fig_links_go names application ls
  | v =>
      .error (.configError
        (check_type_msg application "'links' must be a list" v.typeName))

/-- The `except ValueError` catch of `FigConfiguration._parse`: a
`ValueError` is re-wrapped into a `ConfigurationError` naming the owning
application; every other exception passes through untouched. -/
def wrapFigValueError (application_name : String) :
    Except PyErr α → Except PyErr α
  | .error (.valueError m) => .error (.configError (appErrMsg application_name ++ m))
  | x => x

/-- The body of one iteration of `FigConfiguration._parse`: validate the
application definition, build the `Application` (its links still the empty
set) and return the recorded link directives next to it. -/
def figParseOne (names : List String) (application_name : String)
    (config : PyVal) : Except PyErr (Application × List LinkDirective) :=
  wrapFigValueError application_name (do
    validate_application_keys application_name config
    match config with
    | .pyDict c =>
        match alookup c "image" with
        | none => .error (.keyError "image")
        | some img => do
            check_type img.isStr img "'image' must be a string" application_name
            let image := dockerImageFromString img.asStr
            let environment ← match alookup c "environment" with
              | some e => (parse_app_environment application_name e).map some
              | none => pure none
            let volume ← match alookup c "volumes" with
              | some v => (parse_app_volumes application_name v).map some
              | none => pure none
            let ports ← match alookup c "ports" with
              | some p => parse_app_ports application_name p
              | none => pure []
            let dirs ← match alookup c "links" with
              | some l => parse_app_links names application_name l
              | none => pure []
            .ok (⟨application_name, image, ports.toFinset, volume, ∅, environment⟩, dirs)
    | _ => .error (.keyError "image"))

/-- The loop of `FigConfiguration._parse` over all entries: the first
failure aborts the pass. -/
def figParseApps (names : List String) :
    Dict → Except PyErr (List (String × Application × List LinkDirective))
  | [] => .ok []
  | (application_name, config) :: rest => do
      let one ← figParseOne names application_name config
      let r ← figParseApps names rest
      .ok ((application_name, one.1, one.2) :: r)

/-- Lookup in the parsed-applications table (`self._applications[name]`). -/
def lookupParsed (tbl : List (String × Application × List LinkDirective))
    (k : String) : Option Application :=
  (alookup tbl k).map Prod.fst

/-- A linear order on ports (lexicographic), used only to enumerate a
frozenset of ports in a canonical order where Python iterates it in an
arbitrary one; every consumer of the enumeration is order-insensitive. -/
instance : LinearOrder Port :=
  LinearOrder.lift' (fun p => toLex (p.internal_port, p.external_port))
    (fun p q h => by
      cases p; cases q
      simp only [toLex_inj, Prod.mk.injEq] at h
      simp_all)

/-- A linear order on links (lexicographic), with the same role as the
order on ports. -/
instance : LinearOrder Link :=
  LinearOrder.lift' (fun l => toLex (l.local_port, toLex (l.remote_port, l.alias')))
    (fun p q h => by
      cases p; cases q
      simp only [toLex_inj, Prod.mk.injEq] at h
      simp_all)

/-- Enumeration of a finite set in ascending order, by insertion sort so
that concrete enumerations reduce. -/
def sortedKeyList {α : Type} [LinearOrder α] (s : Finset α) : List α :=
  Quot.liftOn s.1 (List.insertionSort (· ≤ ·)) (fun l1 l2 h =>
    List.eq_of_perm_of_sorted
      ((List.perm_insertionSort _ l1).trans
        ((Quotient.exact (Quot.sound h)).trans
          (List.perm_insertionSort _ l2).symm))
      (List.sorted_insertionSort _ l1) (List.sorted_insertionSort _ l2))

/-- Enumeration of a frozenset of ports (`iter(...)`), in the canonical
order (Python's iteration order is arbitrary; every consumer is
order-insensitive). -/
def portsToList (s : Finset Port) : List Port :=
  sortedKeyList s

/-- Enumeration of a frozenset of links (`iter(...)`), in the canonical
order. -/
def linksToList (s : Finset Link) : List Link :=
  sortedKeyList s

/-- The inner loops of `FigConfiguration._link_applications` for one
application: each directive contributes one `Link` per port of the target
application (local = the target's internal port, remote = its external
port, alias = the directive's alias); the accumulated list is turned into a
frozenset, so the result is the union of the per-directive images. A target
missing from the table would raise `KeyError`; after a successful parse
every target is present. -/
def resolveDirs (tbl : List (String × Application × List LinkDirective)) :
    List LinkDirective → Except PyErr (Finset Link)
  | [] => .ok ∅
  | d :: rest =>
      match lookupParsed tbl d.target_application with
      | none => .error (.keyError d.target_application)
      | some target => do
          let r ← resolveDirs tbl rest
          .ok (target.ports.image
            (fun p => ⟨p.internal_port, p.external_port, d.alias'⟩) ∪ r)

/-- The outer loop of `_link_applications`, carried over the full table for
target lookups. -/
def link_apps_go (full : List (String × Application × List LinkDirective)) :
    List (String × Application × List LinkDirective) →
    Except PyErr (List (String × Application))
  | [] => .ok []
  | (application_name, app, dirs) :: rest => do
      let links ← resolveDirs full dirs
      let r ← link_apps_go full rest
      .ok ((application_name, { app with links := links }) :: r)

/-- `FigConfiguration._link_applications`: fill every parsed application's
links from its recorded directives, as a frozenset. -/
def link_applications (tbl : List (String × Application × List LinkDirective)) :
    Except PyErr (List (String × Application)) :=
  link_apps_go tbl tbl

/-- `FigConfiguration._parse` after validation: parse every application,
then run the deferred link pass over the completed table. -/
def figApplicationsCore (cfg : Dict) : Except PyErr (List (String × Application)) := do
  let tbl ← figParseApps (cfg.map Prod.fst) cfg
  link_applications tbl

/-- `FigConfiguration(cfg).applications()`: validate the format first
(raising when the configuration is not fig-format), then parse. -/
def figApplications (cfg : Dict) : Except PyErr (List (String × Application)) := do
  let valid ← is_valid_format cfg
  if valid then figApplicationsCore cfg
  else .error (.configError "Supplied configuration does not appear to be Fig format.")

/-- `Configuration._parse_environment_config`: pop `environment` from the
application's mapping; a falsy value passes through (modelled as none, see
`Application`), a truthy value must be a dictionary of string values. The
residual mapping is returned next to the result. -/
def parse_environment_config (application_name : String) (config : Dict) :
    Except PyErr (Option (Finset (String × String)) × Dict) :=
  let popped := dpop config "environment"
  let environment := popped.1.getD .pyNone
  if !environment.truthy then .ok (none, popped.2)
  else
    match environment with
    | .pyDict d =>
        match d.find? (fun kv => !kv.2.isStr) with
        | some kv =>
            .error (.configError (check_type_msg application_name
              ("Environment variable '" ++ kv.1 ++ "' must be a string")
              kv.2.typeName))
        | none =>
            .ok (some ((d.map (fun kv => (kv.1, kv.2.asStr))).toFinset), popped.2)
    | v =>
        .error (.configError (check_type_msg application_name
          "'environment' must be a dictionary of key/value pairs" v.typeName))

/-- One iteration of the loop in `Configuration._parse_link_configuration`:
pop `local_port`, `remote_port` and `alias`, type-check each (the type
check raises `ConfigurationError` directly, the missing key a `ValueError`
for the catch site to wrap), and reject leftover keys. -/
def parse_link_item (application_name : String) (link : PyVal) :
    Except PyErr Link :=
  match link with
  | .pyDict d => do
      let p1 := dpop d "local_port"
      match p1.1 with
      | none => .error (.valueError "Missing local port.")
      | some local_port => do
          check_type local_port.isInt local_port
            "Link's local port must be an int" application_name
          let p2 := dpop p1.2 "remote_port"
          match p2.1 with
          | none => .error (.valueError "Missing remote port.")
          | some remote_port => do
              check_type remote_port.isInt remote_port
                "Link's remote port must be an int" application_name
              let p3 := dpop p2.2 "alias"
              match p3.1 with
              | none => .error (.valueError "Missing alias.")
              | some al => do
                  check_type al.isStr al "Link alias must be a string"
                    application_name
                  match p3.2 with
                  | [] => .ok ⟨local_port.asInt, remote_port.asInt, al.asStr⟩
                  | leftover =>
                      .error (.valueError ("Unrecognised keys: " ++
                        joinComma (sortStrings (leftover.map Prod.fst)) ++ "."))
  | v =>
      .error (.configError (check_type_msg application_name
        "Link must be a dictionary" v.typeName))

/-- The loop of `Configuration._parse_link_configuration`. -/
def parse_link_list (application_name : String) :
    List PyVal → Except PyErr (List Link)
  | [] => .ok []
  | link :: rest => do
      let l ← parse_link_item application_name link
      let r ← parse_link_list application_name rest
      .ok (l :: r)

/-- The `except ValueError` catch sites of the native front end: a
`ValueError` becomes a `ConfigurationError` whose message opens with the
owning application's name and the given preamble; any other exception
passes through untouched. -/
def wrapNativeValueError (application_name preamble : String) :
    Except PyErr α → Except PyErr α
  | .error (.valueError m) =>
      .error (.configError (appErrMsg application_name ++ preamble ++ " " ++ m))
  | x => x

/-- `Configuration._parse_link_configuration`: the links stanza must be a
list of dictionaries; the parsed links are returned as a frozenset. -/
def parse_link_configuration (application_name : String) (config : PyVal) :
    Except PyErr (Finset Link) :=
  match config with
  | .pyList ls =>
      (wrapNativeValueError application_name "Invalid links specification."
        (parse_link_list application_name ls)).map List.toFinset
  | v =>
      .error (.configError (check_type_msg application_name
        "'links' must be a list of dictionaries" v.typeName))

/-- One iteration of the ports loop in
`Configuration._applications_from_flocker_configuration`: pop `internal`
and `external` (a missing key raises `ValueError` for the catch site) and
reject leftover keys. The code passes the popped values to `Port` without
a type check; `Port` is modelled from the spec as holding ints, so a
non-int value is modelled as a `TypeError` from the missing `_model`
module (no claim exercises that corner). A non-dictionary entry raises
`AttributeError` at `port.pop`. -/
def parse_ports_item (port : PyVal) : Except PyErr Port :=
  match port with
  | .pyDict d =>
      let p1 := dpop d "internal"
      match p1.1 with
      | none => .error (.valueError "Missing internal port.")
      | some internal_port =>
          let p2 := dpop p1.2 "external"
          match p2.1 with
          | none => .error (.valueError "Missing external port.")
          | some external_port =>
              match p2.2 with
              | [] =>
                  match internal_port, external_port with
                  | .pyInt i, .pyInt e => .ok ⟨i, e⟩
                  | _, _ => .error (.typeError "port numbers must be ints")
              | leftover =>
                  .error (.valueError ("Unrecognised keys: " ++
                    joinComma (sortStrings (leftover.map Prod.fst)) ++ "."))
  | v =>
      .error (.attributeError
        ("'" ++ v.typeName ++ "' object has no attribute 'pop'"))

/-- The ports loop of
`Configuration._applications_from_flocker_configuration`. -/
def parse_ports_list : List PyVal → Except PyErr (List Port)
  | [] => .ok []
  | port :: rest => do
      let p ← parse_ports_item port
      let r ← parse_ports_list rest
      .ok (p :: r)

/-- The inline ports parsing of the native front end: the popped `ports`
value is iterated (iterating a non-list raises; Python's exact exception
for a string or dictionary value differs, no claim exercises those), and a
`ValueError` is wrapped with the application's name. -/
def parse_ports_configuration (application_name : String) (v : PyVal) :
    Except PyErr (List Port) :=
  match v with
  | .pyList ps =>
      wrapNativeValueError application_name "Invalid ports specification."
        (parse_ports_list ps)
  | w => .error (.typeError ("'" ++ w.typeName ++ "' object is not iterable"))

/-- The volume parsing of the native front end (the `try` block around the
popped `volume` value). `configured_volume['mountpoint']` raises
`TypeError` on a non-dictionary (caught into `ValueError`), `KeyError` on a
missing key (likewise); then, except in lenient mode with a `None`
mountpoint, the mountpoint must be an (ASCII, modelled as: a) string and an
absolute path, and any leftover key after popping `mountpoint` is an error.
In lenient mode with a `None` mountpoint all those checks are skipped and
the volume is created with an undefined mountpoint. -/
def parse_volume_configuration (lenient : Bool) (application_name : String)
    (configured_volume : PyVal) : Except PyErr AttachedVolume :=
  wrapNativeValueError application_name "Invalid volume specification."
    (match configured_volume with
     | .pyDict d =>
         match alookup d "mountpoint" with
         | none => .error (.valueError "Missing mountpoint.")
         | some mountpoint =>
             match lenient, mountpoint with
             | true, .pyNone => .ok ⟨application_name, none⟩
             | _, _ =>
                 match mountpoint with
                 | .pyStr path =>
                     if !pyIsAbs path then
                       .error (.valueError
                         ("Mountpoint " ++ path ++ " is not an absolute path."))
                     else
                       match dremove d "mountpoint" with
                       | [] => .ok ⟨application_name, some path⟩
                       | leftover =>
                           .error (.valueError ("Unrecognised keys: " ++
                             joinComma (sortStrings (leftover.map Prod.fst)) ++ "."))
                 | mp =>
                     .error (.valueError
                       ("Mountpoint " ++ pyShow mp ++ " contains non-ASCII (unsupported)."))
     | v => .error (.valueError ("Unexpected value: " ++ pyShow v)))

/-- The message for a missing required key of a native application
(`"Missing value for '{key}'."` wrapped with the application's name). -/
def nativeMissingValueMsg (application_name key : String) : String :=
  appErrMsg application_name ++ "Missing value for '" ++ key ++ "'."

/-- The per-application body of
`Configuration._applications_from_flocker_configuration`: pop `image`,
`ports`, `links`, `volume` and `environment` out of the application's
mapping, validate each stanza, and reject whatever keys remain. The
residual mapping (empty after a successful parse) is returned next to the
`Application`. A non-dictionary application config raises `AttributeError`
at the first pop; the image-reference parser is external and modelled as
accepting any string (its `ValueError` branch is dead here) and rejecting
non-strings. -/
def nativeParseApp (lenient : Bool) (application_name : String)
    (config : PyVal) : Except PyErr (Application × PyVal) :=
  match config with
  | .pyDict c =>
      let pimg := dpop c "image"
      match pimg.1 with
      | none => .error (.configError (nativeMissingValueMsg application_name "image"))
      | some image_name =>
          match image_name with
          | .pyStr image_str => do
              let image := dockerImageFromString image_str
              let pports := dpop pimg.2 "ports"
              let ports ← parse_ports_configuration application_name
                (pports.1.getD (.pyList []))
              let plinks := dpop pports.2 "links"
              let links ← parse_link_configuration application_name
                (plinks.1.getD (.pyList []))
              let pvol := dpop plinks.2 "volume"
              let volume ← match pvol.1 with
                | some cv => (parse_volume_configuration lenient application_name cv).map some
                | none => pure none
              let penv ← parse_environment_config application_name pvol.2
              match penv.2 with
              | [] =>
                  .ok (⟨application_name, image, ports.toFinset, volume,
                        links, penv.1⟩, .pyDict [])
              | leftover =>
                  .error (.configError (appErrMsg application_name ++
                    "Unrecognised keys: " ++
                    joinComma (sortStrings (leftover.map Prod.fst)) ++ "."))
          | v => .error (.typeError ("image reference must be a string, got " ++ v.typeName))
  | v =>
      .error (.attributeError
        ("'" ++ v.typeName ++ "' object has no attribute 'pop'"))

/-- The loop of `_applications_from_flocker_configuration` over the entries
of the `applications` mapping: the first failure aborts the pass. Each
entry's parsed `Application` and residual mapping are collected in order. -/
def nativeParseApps (lenient : Bool) :
    List (String × PyVal) → Except PyErr (List (String × Application × PyVal))
  | [] => .ok []
  | (application_name, config) :: rest => do
      let one ← nativeParseApp lenient application_name config
      let r ← nativeParseApps lenient rest
      .ok ((application_name, one.1, one.2) :: r)

/-- `Configuration._applications_from_flocker_configuration`: require the
`applications` and `version` keys, require version `1`, then parse every
application. The in-place key consumption is returned explicitly: the
second component is the caller's mapping as the pass leaves it, with every
application's mapping replaced by its (empty) residual. -/
def applications_from_flocker_configuration (lenient : Bool) (cfg : Dict) :
    Except PyErr (List (String × Application) × Dict) :=
  match alookup cfg "applications" with
  | none =>
      .error (.configError
        "Application configuration has an error. Missing 'applications' key.")
  | some appsv =>
      match alookup cfg "version" with
      | none =>
          .error (.configError
            "Application configuration has an error. Missing 'version' key.")
      | some version =>
          match version with
          | .pyInt 1 =>
              match appsv with
              | .pyDict apps => do
                  let res ← nativeParseApps lenient apps
                  .ok (res.map (fun r => (r.1, r.2.1)),
                       dinsert cfg "applications"
                         (.pyDict (res.map (fun r => (r.1, r.2.2)))))
              | v =>
                  .error (.attributeError
                    ("'" ++ v.typeName ++ "' object has no attribute 'items'"))
          | _ =>
              .error (.configError
                "Application configuration has an error. Incorrect version specified.")

/-- `Configuration._applications_from_configuration`: build a
`FigConfiguration` (whose constructor rejects a non-dictionary), detect the
dialect with `is_valid_format`, and hand the mapping to the fig or the
native front end. -/
def applications_from_configuration (lenient : Bool)
    (application_configuration : PyVal) :
    Except PyErr (List (String × Application)) :=
  match application_configuration with
  | .pyDict cfg => do
      let valid ← is_valid_format cfg
      if valid then figApplicationsCore cfg
      else (applications_from_flocker_configuration lenient cfg).map Prod.fst
  | v =>
      .error (.configError
        ("Application configuration must be a dictionary, got " ++ v.typeName ++ "."))

/-- The message for a node listing an application name that resolves to
nothing. -/
def nodeUnrecognisedAppMsg (hostname application_name : String) : String :=
  "Node " ++ hostname ++ " has a config error. Unrecognised application name: " ++
    application_name ++ "."

/-- The inner loop of `Configuration._deployment_from_configuration` over
one node's application names: each must resolve in the application mapping
(`all_applications.get(name)`; a non-string name never resolves). -/
def node_names_go (hostname : String) (all_applications : List (String × Application)) :
    List PyVal → Except PyErr (List Application)
  | [] => .ok []
  | name :: rest =>
      match name with
      | .pyStr s =>
          match alookup all_applications s with
          | none => .error (.configError (nodeUnrecognisedAppMsg hostname s))
          | some application => do
              let r ← node_names_go hostname all_applications rest
              .ok (application :: r)
      | v => .error (.configError (nodeUnrecognisedAppMsg hostname (pyShow v)))

/-- The outer loop of `Configuration._deployment_from_configuration` over
the `nodes` mapping: each node's value must be a list of application
names. -/
def nodes_go (all_applications : List (String × Application)) :
    List (String × PyVal) → Except PyErr (List Node)
  | [] => .ok []
  | (hostname, application_names) :: rest =>
      match application_names with
      | .pyList names => do
          let apps ← node_names_go hostname all_applications names
          let r ← nodes_go all_applications rest
          .ok (⟨hostname, apps.toFinset⟩ :: r)
      | v =>
          .error (.configError ("Node " ++ hostname ++
            " has a config error. Wrong value type: " ++ v.typeName ++
            ". Should be list."))

/-- `Configuration._deployment_from_configuration`: require `nodes` and
`version`, require version `1`, then build one `Node` per hostname; the
result is the set of nodes. -/
def deployment_from_configuration (deployment_configuration : PyVal)
    (all_applications : List (String × Application)) :
    Except PyErr (Finset Node) :=
  match deployment_configuration with
  | .pyDict cfg =>
      match alookup cfg "nodes" with
      | none =>
          .error (.configError
            "Deployment configuration has an error. Missing 'nodes' key.")
      | some nodesv =>
          match alookup cfg "version" with
          | none =>
              .error (.configError
                "Deployment configuration has an error. Missing 'version' key.")
          | some version =>
              match version with
              | .pyInt 1 =>
                  match nodesv with
                  | .pyDict ns => (nodes_go all_applications ns).map List.toFinset
                  | v =>
                      .error (.attributeError
                        ("'" ++ v.typeName ++ "' object has no attribute 'items'"))
              | _ =>
                  .error (.configError
                    "Deployment configuration has an error. Incorrect version specified.")
  | v => .error (.typeError ("argument of type '" ++ v.typeName ++ "' is not iterable"))

/-- `Configuration().model_from_configuration` (the module-level binding,
non-lenient): applications, then nodes, then the `Deployment`. The first
validation failure anywhere aborts the whole pass. -/
def model_from_configuration (application_configuration deployment_configuration : PyVal) :
    Except PyErr Deployment := do
  let applications ← applications_from_configuration false application_configuration
  let nodes ← deployment_from_configuration deployment_configuration applications
  .ok ⟨nodes⟩

/-- The loop of `current_from_configuration` over the node mapping: each
node's value is parsed by `Configuration(lenient=True)`'s application
parser (the dialect-detecting one), and the parsed applications' values
become the node's application set. -/
def current_nodes_go : List (String × PyVal) → Except PyErr (List Node)
  | [] => .ok []
  | (hostname, applications) :: rest => do
      let node_applications ← applications_from_configuration true applications
      let r ← current_nodes_go rest
      .ok (⟨hostname, (node_applications.map Prod.snd).toFinset⟩ :: r)

/-- `current_from_configuration`: validate and coerce the observed cluster
state into a `Deployment`, node by node, in lenient mode. -/
def current_from_configuration (current_configuration : PyVal) :
    Except PyErr Deployment :=
  match current_configuration with
  | .pyDict m => (current_nodes_go m).map (fun ns => ⟨ns.toFinset⟩)
  | v => .error (.attributeError ("'" ++ v.typeName ++ "' object has no attribute 'items'"))

/-- Modelled from the spec: the per-node parse that section 6 ascribes to
`current_from_configuration` — "applies the native-dialect application
parser per node in lenient mode" — with the same mapping requirement as the
code's entry point but no fig-dialect detection. Written to compare the
code's behaviour against the spec's sentence (claim about refinement). -/
def current_nodes_go_spec : List (String × PyVal) → Except PyErr (List Node)
  | [] => .ok []
  | (hostname, applications) :: rest => do
      let node_applications ←
        match applications with
        | .pyDict cfg => (applications_from_flocker_configuration true cfg).map Prod.fst
        | v =>
            .error (.configError
              ("Application configuration must be a dictionary, got " ++ v.typeName ++ "."))
      let r ← current_nodes_go_spec rest
      .ok (⟨hostname, (node_applications.map Prod.snd).toFinset⟩ :: r)

/-- Modelled from the spec: `current_from_configuration` as section 6
states it, the per-node parse always the native-dialect lenient parser. -/
def current_from_configuration_spec (current_configuration : PyVal) :
    Except PyErr Deployment :=
  match current_configuration with
  | .pyDict m => (current_nodes_go_spec m).map (fun ns => ⟨ns.toFinset⟩)
  | v => .error (.attributeError ("'" ++ v.typeName ++ "' object has no attribute 'items'"))

/-- The mapping `configuration_to_yaml` emits for one port. -/
def portToYaml (port : Port) : PyVal :=
  .pyDict [("internal", .pyInt port.internal_port),
           ("external", .pyInt port.external_port)]

/-- The mapping `configuration_to_yaml` emits for one link. -/
def linkToYaml (link : Link) : PyVal :=
  .pyDict [("local_port", .pyInt link.local_port),
           ("remote_port", .pyInt link.remote_port),
           ("alias", .pyStr link.alias')]

/-- The per-application mapping `configuration_to_yaml` emits: the image is
always the placeholder `unknown`, the ports are emitted faithfully, the
links only when the application has any, and a present volume is projected
with an unknown (`None`) mountpoint. The frozensets are enumerated in the
canonical order (Python's iteration order is arbitrary). -/
def applicationToYaml (application : Application) : PyVal :=
  .pyDict
    ([("image", .pyStr "unknown"),
      ("ports", .pyList ((portsToList application.ports).map portToYaml))]
     ++ (if application.links = ∅ then [] else
          [("links", .pyList ((linksToList application.links).map linkToYaml))])
     ++ (match application.volume with
         | some _ => [("volume", .pyDict [("mountpoint", .pyNone)])]
         | none => []))

/-- The result mapping of `configuration_to_yaml`, built with Python's
overwriting item assignment (`result[application.name] = ...`). -/
def configurationToYamlApps (applications : List Application) : Dict :=
  applications.foldl (fun result a => dinsert result a.name (applicationToYaml a)) []

/-- `configuration_to_yaml`: the lossy reverse projection of an application
set into the native application dialect under version 1. The external YAML
encoder (`yaml.safe_dump`, out of scope per the spec) round-trips this
structure; the projection is modelled at the decoded-mapping level. -/
def configuration_to_yaml (applications : List Application) : Dict :=
  [("version", .pyInt 1),
   ("applications", .pyDict (configurationToYamlApps applications))]

deriving instance DecidableEq for Except
/-- A concrete mapping holding a valid entry before an ambiguous one. -/
def c1AmbiguousCfg : Dict :=
  [("ok", .pyDict [("image", .pyStr "busybox")]),
   ("amb", .pyDict [("image", .pyStr "busybox"), ("build", .pyStr ".")])]
/-- A fig configuration whose `ports` list holds an int instead of a
string. -/
def c3PortsBugCfg : Dict :=
  [("app", .pyDict [("image", .pyStr "busybox"), ("ports", .pyList [.pyInt 80])])]
/-- A fig configuration whose `volumes` list is empty. -/
def c3VolumesBugCfg : Dict :=
  [("app", .pyDict [("image", .pyStr "busybox"), ("volumes", .pyList [])])]
/-- The spec's fig link example: `web` links to `db`, `db` exposes
`5432:5432`. -/
def figLinkExampleCfg : Dict :=
  [("web", .pyDict [("image", .pyStr "busybox"),
                    ("links", .pyList [.pyStr "db"])]),
   ("db", .pyDict [("image", .pyStr "busybox"),
                   ("ports", .pyList [.pyStr "5432:5432"])])]
/-- The parsed applications of `figLinkExampleCfg`: `web` carries exactly
the one resolved link `Link(local_port=5432, remote_port=5432, alias=db)`. -/
def figLinkExampleResult : List (String × Application) :=
  [("web", ⟨"web", ⟨"busybox", "latest"⟩, ∅, none, {⟨5432, 5432, "db"⟩}, none⟩),
   ("db", ⟨"db", ⟨"busybox", "latest"⟩, {⟨5432, 5432⟩}, none, ∅, none⟩)]
/-- An observed-state mapping whose per-node configuration is valid
fig-format. -/
def c6FigShapedCurrentCfg : PyVal :=
  .pyDict [("node1", .pyDict [("web", .pyDict [("image", .pyStr "busybox")])])]
/-- A native configuration with no applications at all. -/
def c10EmptyCfg : Dict :=
  [("version", .pyInt 1), ("applications", .pyDict [])]
/-- A native configuration with one fully specified application. -/
def c10OneAppCfg : Dict :=
  [("version", .pyInt 1),
   ("applications", .pyDict
     [("web", .pyDict
       [("image", .pyStr "busybox"),
        ("ports", .pyList [.pyDict [("internal", .pyInt 80),
                                    ("external", .pyInt 8080)]])])])]
/-- What parsing `c10OneAppCfg` returns. -/
def c10Apps : List (String × Application) :=
  [("web", ⟨"web", ⟨"busybox", "latest"⟩, {⟨80, 8080⟩}, none, ∅, none⟩)]
/-- What parsing `c10OneAppCfg` leaves of the caller's mapping: the
application's keys are all consumed. -/
def c10Residual : Dict :=
  [("version", .pyInt 1), ("applications", .pyDict [("web", .pyDict [])])]
/-- An application whose image already is the reverse projection's
placeholder. -/
def c4PlaceholderApp : Application :=
  ⟨"web", ⟨"unknown", "latest"⟩, ∅, none, ∅, none⟩
/-- A fully featured application for the round-trip witness. -/
def c4SampleApp : Application :=
  ⟨"db", ⟨"postgres", "7"⟩, {⟨5432, 15432⟩}, some ⟨"db", some "/var/db"⟩,
   {⟨1, 2, "x"⟩}, none⟩

/-- The enumeration holds exactly the set's elements. -/
theorem mem_sortedKeyList {α : Type} [LinearOrder α] (s : Finset α) (x : α) :
    x ∈ sortedKeyList s ↔ x ∈ s := by
  rcases s with ⟨m, nd⟩
  induction m using Quot.ind with
  | _ l =>
      show x ∈ List.insertionSort (· ≤ ·) l ↔ _
      rw [(List.perm_insertionSort (· ≤ ·) l).mem_iff]
      rfl

/-- Turning the enumeration back into a frozenset gives the set back. -/
theorem sortedKeyList_toFinset {α : Type} [LinearOrder α] [DecidableEq α]
    (s : Finset α) : (sortedKeyList s).toFinset = s := by
  ext x
  simp [List.mem_toFinset, mem_sortedKeyList]

/-- With no ambiguous entry the dialect scan never raises, and it returns
true exactly when the flag was already set or some entry holds exactly one
identifying key. -/
theorem ivf_go_no_ambiguous : ∀ (cfg : Dict) (b : Bool),
    (∀ e ∈ cfg, identifier_count e.2 ≤ 1) →
    ∃ r, ivf_go cfg b = .ok r ∧
      (r = true ↔ (b = true ∨ ∃ e ∈ cfg, identifier_count e.2 = 1))
  | [], b, _ => ⟨b, rfl, by simp⟩
  | (name, v) :: rest, b, h => by
      have hv := h (name, v) (List.mem_cons_self _ _)
      have hrest := fun e he => h e (List.mem_cons_of_mem _ he)
      cases v with
      | pyDict c =>
          simp only [identifier_count] at hv
          by_cases h1 : count_identifier_keys c = 1
          · obtain ⟨r, hr, hiff⟩ := ivf_go_no_ambiguous rest true hrest
            have : r = true := hiff.mpr (Or.inl rfl)
            subst this
            refine ⟨true, ?_, ?_⟩
            · simp only [ivf_go]
              rw [if_pos h1]
              exact hr
            · constructor
              · intro _
                exact Or.inr ⟨(name, .pyDict c), List.mem_cons_self _ _, h1⟩
              · intro _
                rfl
          · have h0 : count_identifier_keys c = 0 := by omega
            obtain ⟨r, hr, hiff⟩ := ivf_go_no_ambiguous rest b hrest
            refine ⟨r, ?_, ?_⟩
            · simp only [ivf_go]
              rw [if_neg h1, if_neg (by omega)]
              exact hr
            · rw [hiff]
              constructor
              · rintro (hb | he)
                · exact Or.inl hb
                · exact Or.inr (by
                    obtain ⟨e, he', h1'⟩ := he
                    exact ⟨e, List.mem_cons_of_mem _ he', h1'⟩)
              · rintro (hb | ⟨e, he', h1'⟩)
                · exact Or.inl hb
                · rcases List.mem_cons.mp he' with rfl | hm
                  · exact absurd h1' (by simp [identifier_count]; omega)
                  · exact Or.inr ⟨e, hm, h1'⟩
      | pyStr s =>
          obtain ⟨r, hr, hiff⟩ := ivf_go_no_ambiguous rest b hrest
          refine ⟨r, hr, ?_⟩
          rw [hiff]
          constructor
          · rintro (hb | ⟨e, he', h1'⟩)
            · exact Or.inl hb
            · exact Or.inr ⟨e, List.mem_cons_of_mem _ he', h1'⟩
          · rintro (hb | ⟨e, he', h1'⟩)
            · exact Or.inl hb
            · rcases List.mem_cons.mp he' with rfl | hm
              · exact absurd h1' (by simp [identifier_count])
              · exact Or.inr ⟨e, hm, h1'⟩
      | pyInt n =>
          obtain ⟨r, hr, hiff⟩ := ivf_go_no_ambiguous rest b hrest
          refine ⟨r, hr, ?_⟩
          rw [hiff]
          constructor
          · rintro (hb | ⟨e, he', h1'⟩)
            · exact Or.inl hb
            · exact Or.inr ⟨e, List.mem_cons_of_mem _ he', h1'⟩
          · rintro (hb | ⟨e, he', h1'⟩)
            · exact Or.inl hb
            · rcases List.mem_cons.mp he' with rfl | hm
              · exact absurd h1' (by simp [identifier_count])
              · exact Or.inr ⟨e, hm, h1'⟩
      | pyList xs =>
          obtain ⟨r, hr, hiff⟩ := ivf_go_no_ambiguous rest b hrest
          refine ⟨r, hr, ?_⟩
          rw [hiff]
          constructor
          · rintro (hb | ⟨e, he', h1'⟩)
            · exact Or.inl hb
            · exact Or.inr ⟨e, List.mem_cons_of_mem _ he', h1'⟩
          · rintro (hb | ⟨e, he', h1'⟩)
            · exact Or.inl hb
            · rcases List.mem_cons.mp he' with rfl | hm
              · exact absurd h1' (by simp [identifier_count])
              · exact Or.inr ⟨e, hm, h1'⟩
      | pyNone =>
          obtain ⟨r, hr, hiff⟩ := ivf_go_no_ambiguous rest b hrest
          refine ⟨r, hr, ?_⟩
          rw [hiff]
          constructor
          · rintro (hb | ⟨e, he', h1'⟩)
            · exact Or.inl hb
            · exact Or.inr ⟨e, List.mem_cons_of_mem _ he', h1'⟩
          · rintro (hb | ⟨e, he', h1'⟩)
            · exact Or.inl hb
            · rcases List.mem_cons.mp he' with rfl | hm
              · exact absurd h1' (by simp [identifier_count])
              · exact Or.inr ⟨e, hm, h1'⟩

/-- With an ambiguous entry somewhere, the dialect scan raises the
configuration error naming an ambiguous application, whatever the running
flag holds. -/
theorem ivf_go_ambiguous : ∀ (cfg : Dict) (b : Bool),
    (∃ e ∈ cfg, 2 ≤ identifier_count e.2) →
    ∃ name c, (name, PyVal.pyDict c) ∈ cfg ∧ 2 ≤ count_identifier_keys c ∧
      ivf_go cfg b = .error (.configError (figBothKeysMsg name))
  | [], _, h => by simp at h
  | (name, v) :: rest, b, h => by
      have hdown : (∃ e ∈ rest, 2 ≤ identifier_count e.2) →
          ∀ b', ∃ n2 c2, (n2, PyVal.pyDict c2) ∈ (name, v) :: rest ∧
            2 ≤ count_identifier_keys c2 ∧
            ivf_go rest b' = .error (.configError (figBothKeysMsg n2)) := by
        intro hrest b'
        obtain ⟨n2, c2, hm, hc2, hrun⟩ := ivf_go_ambiguous rest b' hrest
        exact ⟨n2, c2, List.mem_cons_of_mem _ hm, hc2, hrun⟩
      cases v with
      | pyDict c =>
          by_cases h2 : 2 ≤ count_identifier_keys c
          · refine ⟨name, c, List.mem_cons_self _ _, h2, ?_⟩
            simp only [ivf_go]
            rw [if_neg (by omega), if_pos (by omega)]
          · have hrest : ∃ e ∈ rest, 2 ≤ identifier_count e.2 := by
              obtain ⟨e, he, h2'⟩ := h
              rcases List.mem_cons.mp he with rfl | hm
              · simp only [identifier_count] at h2'; omega
              · exact ⟨e, hm, h2'⟩
            by_cases h1 : count_identifier_keys c = 1
            · obtain ⟨n2, c2, hm, hc2, hrun⟩ := hdown hrest true
              refine ⟨n2, c2, hm, hc2, ?_⟩
              simp only [ivf_go]
              rw [if_pos h1]
              exact hrun
            · obtain ⟨n2, c2, hm, hc2, hrun⟩ := hdown hrest b
              refine ⟨n2, c2, hm, hc2, ?_⟩
              simp only [ivf_go]
              rw [if_neg h1, if_neg (by omega)]
              exact hrun
      | pyStr s =>
          have hrest : ∃ e ∈ rest, 2 ≤ identifier_count e.2 := by
            obtain ⟨e, he, h2'⟩ := h
            rcases List.mem_cons.mp he with rfl | hm
            · exact absurd h2' (by simp [identifier_count])
            · exact ⟨e, hm, h2'⟩
          exact hdown hrest b
      | pyInt n =>
          have hrest : ∃ e ∈ rest, 2 ≤ identifier_count e.2 := by
            obtain ⟨e, he, h2'⟩ := h
            rcases List.mem_cons.mp he with rfl | hm
            · exact absurd h2' (by simp [identifier_count])
            · exact ⟨e, hm, h2'⟩
          exact hdown hrest b
      | pyList xs =>
          have hrest : ∃ e ∈ rest, 2 ≤ identifier_count e.2 := by
            obtain ⟨e, he, h2'⟩ := h
            rcases List.mem_cons.mp he with rfl | hm
            · exact absurd h2' (by simp [identifier_count])
            · exact ⟨e, hm, h2'⟩
          exact hdown hrest b
      | pyNone =>
          have hrest : ∃ e ∈ rest, 2 ≤ identifier_count e.2 := by
            obtain ⟨e, he, h2'⟩ := h
            rcases List.mem_cons.mp he with rfl | hm
            · exact absurd h2' (by simp [identifier_count])
            · exact ⟨e, hm, h2'⟩
          exact hdown hrest b

/-- C1: for every application-configuration mapping, `is_valid_format`
returns true iff at least one application entry holds exactly one of the
identifying keys `image`/`build` and no entry holds both (a non-mapping
entry is skipped, which coincides with holding neither); and whenever some
entry (a mapping) holds both keys, the call raises the configuration error
naming an ambiguous application, regardless of where that entry sits in the
mapping and regardless of other entries being individually valid. -/
theorem C1_is_valid_format (cfg : Dict) :
    (is_valid_format cfg = .ok true ↔
      ((∃ e ∈ cfg, identifier_count e.2 = 1) ∧ ∀ e ∈ cfg, identifier_count e.2 ≤ 1)) ∧
    ((∃ e ∈ cfg, 2 ≤ identifier_count e.2) →
      ∃ name c, (name, PyVal.pyDict c) ∈ cfg ∧ 2 ≤ count_identifier_keys c ∧
        is_valid_format cfg = .error (.configError (figBothKeysMsg name))) := by
  constructor
  · constructor
    · intro hok
      have hno : ∀ e ∈ cfg, identifier_count e.2 ≤ 1 := by
        by_contra hc
        push_neg at hc
        obtain ⟨e, he, h2⟩ := hc
        obtain ⟨nm, c, _, _, hrun⟩ := ivf_go_ambiguous cfg false ⟨e, he, by omega⟩
        rw [is_valid_format, hrun] at hok
        exact absurd hok (by simp)
      obtain ⟨r, hr, hiff⟩ := ivf_go_no_ambiguous cfg false hno
      have hrt : r = true := by
        rw [is_valid_format, hr] at hok
        exact Except.ok.inj hok
      rcases hiff.mp hrt with hb | hex
      · exact absurd hb (by simp)
      · exact ⟨hex, hno⟩
    · rintro ⟨hex, hno⟩
      obtain ⟨r, hr, hiff⟩ := ivf_go_no_ambiguous cfg false hno
      have hrt : r = true := hiff.mpr (Or.inr hex)
      rw [is_valid_format, hr, hrt]
  · intro h
    obtain ⟨name, c, hm, hc, hrun⟩ := ivf_go_ambiguous cfg false h
    exact ⟨name, c, hm, hc, by rw [is_valid_format]; exact hrun⟩

/-- Witness for C1: the ambiguous-entry branch fires on a concrete mapping
whose ambiguous entry sits after an individually valid one. -/
theorem C1_is_valid_format_witness :
    ∃ name c, (name, PyVal.pyDict c) ∈ c1AmbiguousCfg ∧
      2 ≤ count_identifier_keys c ∧
      is_valid_format c1AmbiguousCfg = .error (.configError (figBothKeysMsg name)) :=
  (C1_is_valid_format c1AmbiguousCfg).2 (by decide)

/-- C7: for every fig application definition, supplying two or more volume
strings raises the one-volume configuration error, and supplying exactly
one string yields an `AttachedVolume` named after the application whose
mountpoint is that string read as a path — with no absoluteness check in
this dialect (the string is arbitrary). -/
theorem C7_parse_app_volumes :
    (∀ (application : String) (vs : List PyVal),
      (∀ v ∈ vs, v.isStr = true) → 2 ≤ vs.length →
      parse_app_volumes application (.pyList vs) =
        .error (.configError (figVolumesTooManyMsg application))) ∧
    (∀ (application s : String),
      parse_app_volumes application (.pyList [.pyStr s]) =
        .ok ⟨application, some s⟩) := by
  constructor
  · intro application vs hstr hlen
    have hfind : vs.find? (fun v => !v.isStr) = none := by
      apply List.find?_eq_none.mpr
      intro v hv
      simp [hstr v hv]
    simp only [parse_app_volumes, hfind]
    rw [if_pos (by omega)]
  · intro application s
    rfl

/-- Witness for C7: two volume strings are rejected, a single `/data`
volume string builds the volume. -/
theorem C7_parse_app_volumes_witness :
    parse_app_volumes "web" (.pyList [.pyStr "/data", .pyStr "/other"]) =
      .error (.configError (figVolumesTooManyMsg "web")) ∧
    parse_app_volumes "web" (.pyList [.pyStr "/data"]) =
      .ok ⟨"web", some "/data"⟩ :=
  ⟨C7_parse_app_volumes.1 "web" [.pyStr "/data", .pyStr "/other"]
      (by decide) (by decide),
   C7_parse_app_volumes.2 "web" "/data"⟩

/-- C3: the claim that only the named configuration-error kind ever escapes
the public parsing boundary fails on the code. A non-string fig `ports`
entry reaches `port.split(':')` and escapes as `AttributeError`, and an
empty fig `volumes` list reaches `volumes.pop()` and escapes as
`IndexError` — neither is the configuration error the spec's error-handling
contract (and the functions' own docstrings) promise. -/
theorem C3_nonconfig_errors_escape :
    figApplications c3PortsBugCfg =
      .error (.attributeError "'int' object has no attribute 'split'") ∧
    figApplications c3VolumesBugCfg =
      .error (.indexError "pop from empty list") :=
  ⟨rfl, rfl⟩

/-- Counterexample to C8: a links entry with two colons — neither of the
form `appname` nor `appname:alias` — is accepted rather than rejected; the
alias silently falls back to the bare target name. -/
theorem C8_counterexample_extra_colons :
    parse_app_links ["web", "db"] "web" (.pyList [.pyStr "db:a:b"]) =
      .ok [⟨"db", "db"⟩] :=
  rfl

/-- C8 as the code has it: a fig links value parses successfully exactly
when every entry is a string whose part before the first colon names a key
of the configuration mapping (no shape check beyond that: extra-colon forms
pass, the alias falling back to the bare target); on success the recorded
directives are the per-entry directives in order; and the first entry whose
target is absent from the mapping raises the configuration error naming the
owning application and the full directive string. -/
theorem C8_parse_app_links (names : List String) (application : String)
    (ls : List PyVal) :
    ((∃ ds, parse_app_links names application (.pyList ls) = .ok ds) ↔
      ∀ l ∈ ls, ∃ s, l = PyVal.pyStr s ∧
        (figLinkDirectiveOf s).target_application ∈ names) ∧
    (∀ ds, parse_app_links names application (.pyList ls) = .ok ds →
      ds = ls.map (fun l => figLinkDirectiveOf l.asStr)) ∧
    (∀ (pre : List PyVal) (s : String) (rest : List PyVal),
      ls = pre ++ PyVal.pyStr s :: rest →
      (∀ l ∈ pre, ∃ t, l = PyVal.pyStr t ∧
        (figLinkDirectiveOf t).target_application ∈ names) →
      (figLinkDirectiveOf s).target_application ∉ names →
      parse_app_links names application (.pyList ls) =
        .error (.configError (figLinkMissingMsg application s))) := by
  refine ⟨?_, ?_, ?_⟩
  · induction ls with
    | nil => simp [parse_app_links, fig_links_go]
    | cons l rest ih =>
        cases l with
        | pyStr s =>
            constructor
            · rintro ⟨ds, hds⟩
              simp only [parse_app_links, fig_links_go] at hds
              by_cases hm : (figLinkDirectiveOf s).target_application ∈ names
              · rw [if_pos hm] at hds
                intro l' hl'
                rcases List.mem_cons.mp hl' with rfl | hl'
                · exact ⟨s, rfl, hm⟩
                · cases hrest : fig_links_go names application rest with
                  | error e =>
                      rw [hrest] at hds
                      exact absurd hds (by simp [Bind.bind, Except.bind])
                  | ok ds' =>
                      exact ih.mp ⟨ds', hrest⟩ l' hl'
              · rw [if_neg hm] at hds
                exact absurd hds (by simp)
            · intro hall
              obtain ⟨t, ht, hm⟩ := hall (PyVal.pyStr s) (List.mem_cons_self _ _)
              obtain rfl : s = t := by injection ht
              obtain ⟨ds', hds'⟩ :=
                ih.mpr (fun l' hl' => hall l' (List.mem_cons_of_mem _ hl'))
              refine ⟨figLinkDirectiveOf s :: ds', ?_⟩
              simp only [parse_app_links, fig_links_go] at hds' ⊢
              rw [if_pos hm, hds']
              rfl
        | pyInt n =>
            constructor
            · rintro ⟨ds, hds⟩
              exact absurd hds (by simp [parse_app_links, fig_links_go])
            · intro hall
              obtain ⟨t, ht, _⟩ := hall (PyVal.pyInt n) (List.mem_cons_self _ _)
              exact absurd ht (by simp)
        | pyList xs =>
            constructor
            · rintro ⟨ds, hds⟩
              exact absurd hds (by simp [parse_app_links, fig_links_go])
            · intro hall
              obtain ⟨t, ht, _⟩ := hall (PyVal.pyList xs) (List.mem_cons_self _ _)
              exact absurd ht (by simp)
        | pyDict d =>
            constructor
            · rintro ⟨ds, hds⟩
              exact absurd hds (by simp [parse_app_links, fig_links_go])
            · intro hall
              obtain ⟨t, ht, _⟩ := hall (PyVal.pyDict d) (List.mem_cons_self _ _)
              exact absurd ht (by simp)
        | pyNone =>
            constructor
            · rintro ⟨ds, hds⟩
              exact absurd hds (by simp [parse_app_links, fig_links_go])
            · intro hall
              obtain ⟨t, ht, _⟩ := hall PyVal.pyNone (List.mem_cons_self _ _)
              exact absurd ht (by simp)
  · induction ls with
    | nil =>
        intro ds hds
        simp only [parse_app_links, fig_links_go, Except.ok.injEq] at hds
        simp [← hds]
    | cons l rest ih =>
        intro ds hds
        cases l with
        | pyStr s =>
            simp only [parse_app_links, fig_links_go] at hds
            by_cases hm : (figLinkDirectiveOf s).target_application ∈ names
            · rw [if_pos hm] at hds
              cases hrest : fig_links_go names application rest with
              | error e =>
                  rw [hrest] at hds
                  exact absurd hds (by simp [Bind.bind, Except.bind])
              | ok ds' =>
                  rw [hrest] at hds
                  simp only [Bind.bind, Except.bind, Except.ok.injEq] at hds
                  subst hds
                  have := ih ds' hrest
                  simp [this, PyVal.asStr]
            · rw [if_neg hm] at hds
              exact absurd hds (by simp)
        | pyInt n => exact absurd hds (by simp [parse_app_links, fig_links_go])
        | pyList xs => exact absurd hds (by simp [parse_app_links, fig_links_go])
        | pyDict d => exact absurd hds (by simp [parse_app_links, fig_links_go])
        | pyNone => exact absurd hds (by simp [parse_app_links, fig_links_go])
  · intro pre s rest hls hpre hmiss
    subst hls
    induction pre with
    | nil =>
        simp only [parse_app_links, List.nil_append, fig_links_go]
        rw [if_neg hmiss]
    | cons p ptail ih =>
        obtain ⟨t, ht, htm⟩ := hpre p (List.mem_cons_self _ _)
        subst ht
        simp only [parse_app_links, List.cons_append, fig_links_go]
        rw [if_pos htm]
        have hrec := ih (fun l hl => hpre l (List.mem_cons_of_mem _ hl))
        simp only [parse_app_links] at hrec
        simp only [List.append_eq]
        rw [hrec]
        rfl

/-- Counterexample to C5: in lenient mode a volume mapping with a null
mountpoint and a stray extra key parses fine — the leftover-key check is
skipped on that path — and the volume is created with an undefined
mountpoint, where the claim demands a configuration error in every mode. -/
theorem C5_counterexample_lenient_extra_key :
    parse_volume_configuration true "web"
      (.pyDict [("mountpoint", .pyNone), ("extra", .pyStr "x")]) =
      .ok ⟨"web", none⟩ :=
  rfl

/-- C5 as the code has it: a leftover key after `mountpoint` is a
configuration error on every path that validates the mountpoint (any mode
with a string mountpoint, shown here for an absolute one), and a
non-lenient parse of a null mountpoint fails regardless; but in lenient
mode a null mountpoint short-circuits all remaining checks, so extra keys
are silently ignored and the volume is created with an undefined
mountpoint. -/
theorem C5_parse_volume_configuration :
    (∀ (lenient : Bool) (name : String) (d : Dict) (path : String),
      alookup d "mountpoint" = some (.pyStr path) → pyIsAbs path = true →
      dremove d "mountpoint" ≠ [] →
      parse_volume_configuration lenient name (.pyDict d) =
        .error (.configError (appErrMsg name ++ "Invalid volume specification." ++
          " " ++ ("Unrecognised keys: " ++
            joinComma (sortStrings ((dremove d "mountpoint").map Prod.fst)) ++ ".")))) ∧
    (∀ (name : String) (d : Dict),
      alookup d "mountpoint" = some .pyNone →
      parse_volume_configuration true name (.pyDict d) = .ok ⟨name, none⟩) ∧
    (∀ (name : String) (d : Dict),
      alookup d "mountpoint" = some .pyNone →
      parse_volume_configuration false name (.pyDict d) =
        .error (.configError (appErrMsg name ++ "Invalid volume specification." ++
          " " ++ "Mountpoint None contains non-ASCII (unsupported)."))) := by
  refine ⟨?_, ?_, ?_⟩
  · intro lenient name d path hmp habs hne
    rcases hdr : dremove d "mountpoint" with _ | ⟨e, tail⟩
    · exact absurd hdr hne
    · cases lenient <;>
        simp [parse_volume_configuration, hmp, hdr, habs, wrapNativeValueError,
          String.append_assoc]
  · intro name d hmp
    simp [parse_volume_configuration, hmp, wrapNativeValueError]
  · intro name d hmp
    simp [parse_volume_configuration, hmp, wrapNativeValueError, pyShow]

/-- Witness for C5: all three branches at concrete volume mappings. -/
theorem C5_parse_volume_configuration_witness :
    parse_volume_configuration false "web"
      (.pyDict [("mountpoint", .pyStr "/data"), ("extra", .pyStr "x")]) =
      .error (.configError (appErrMsg "web" ++ "Invalid volume specification." ++
        " " ++ ("Unrecognised keys: " ++
          joinComma (sortStrings ((dremove [("mountpoint", .pyStr "/data"),
            ("extra", .pyStr "x")] "mountpoint").map Prod.fst)) ++ "."))) ∧
    parse_volume_configuration true "web" (.pyDict [("mountpoint", .pyNone)]) =
      .ok ⟨"web", none⟩ ∧
    parse_volume_configuration false "web" (.pyDict [("mountpoint", .pyNone)]) =
      .error (.configError (appErrMsg "web" ++ "Invalid volume specification." ++
        " " ++ "Mountpoint None contains non-ASCII (unsupported).")) :=
  ⟨C5_parse_volume_configuration.1 false "web" _ "/data" rfl rfl
      (fun h => List.noConfusion h),
   C5_parse_volume_configuration.2.1 "web" _ rfl,
   C5_parse_volume_configuration.2.2 "web" _ rfl⟩

/-- C2: the deferred second pass turns each recorded link directive into
exactly one `Link` per port of the target application — local port the
target's internal port, remote port the target's external port, alias the
directive's alias (the bare target name when none was given) — and on the
spec's concrete example the resolved links of `web` are exactly the
singleton `{Link(local_port=5432, remote_port=5432, alias=db)}`. -/
theorem C2_link_resolution :
    (∀ (tbl : List (String × Application × List LinkDirective))
       (dirs : List LinkDirective),
      (∀ d ∈ dirs, (lookupParsed tbl d.target_application).isSome = true) →
      ∃ ls, resolveDirs tbl dirs = .ok ls ∧
        ∀ lk, lk ∈ ls ↔ ∃ d ∈ dirs, ∃ t,
          lookupParsed tbl d.target_application = some t ∧
          ∃ p ∈ t.ports, lk = ⟨p.internal_port, p.external_port, d.alias'⟩) ∧
    figApplications figLinkExampleCfg = .ok figLinkExampleResult := by
  constructor
  · intro tbl dirs hall
    induction dirs with
    | nil => exact ⟨∅, rfl, by simp⟩
    | cons d rest ih =>
        obtain ⟨t, ht⟩ :=
          Option.isSome_iff_exists.mp (hall d (List.mem_cons_self _ _))
        obtain ⟨r, hr, hmem⟩ :=
          ih (fun d' hd' => hall d' (List.mem_cons_of_mem _ hd'))
        refine ⟨t.ports.image
          (fun p => ⟨p.internal_port, p.external_port, d.alias'⟩) ∪ r, ?_, ?_⟩
        · simp only [resolveDirs, ht, hr]
          rfl
        · intro lk
          simp only [Finset.mem_union, Finset.mem_image, hmem]
          constructor
          · rintro (⟨p, hp, rfl⟩ | ⟨d', hd', t', ht', p, hp, rfl⟩)
            · exact ⟨d, List.mem_cons_self _ _, t, ht, p, hp, rfl⟩
            · exact ⟨d', List.mem_cons_of_mem _ hd', t', ht', p, hp, rfl⟩
          · rintro ⟨d', hd', t', ht', p, hp, rfl⟩
            rcases List.mem_cons.mp hd' with rfl | hd'
            · rw [ht] at ht'
              obtain rfl := Option.some.inj ht'
              exact Or.inl ⟨p, hp, rfl⟩
            · exact Or.inr ⟨d', hd', t', ht', p, hp, rfl⟩
  · decide

/-- Witness for C2: the universal part applied to the example's completed
table, resolving the single directive of `web` against the ports of `db`. -/
theorem C2_link_resolution_witness :
    ∃ ls, resolveDirs
        [("web", ⟨"web", ⟨"busybox", "latest"⟩, ∅, none, ∅, none⟩, [⟨"db", "db"⟩]),
         ("db", ⟨"db", ⟨"busybox", "latest"⟩, {⟨5432, 5432⟩}, none, ∅, none⟩, [])]
        [⟨"db", "db"⟩] = .ok ls ∧
      ∀ lk, lk ∈ ls ↔ ∃ d ∈ [(⟨"db", "db"⟩ : LinkDirective)], ∃ t,
        lookupParsed
          [("web", ⟨"web", ⟨"busybox", "latest"⟩, ∅, none, ∅, none⟩, [⟨"db", "db"⟩]),
           ("db", ⟨"db", ⟨"busybox", "latest"⟩, {⟨5432, 5432⟩}, none, ∅, none⟩, [])]
          d.target_application = some t ∧
        ∃ p ∈ t.ports, lk = ⟨p.internal_port, p.external_port, d.alias'⟩ :=
  C2_link_resolution.1 _ _ (by decide)

/-- When every name of a node's list is a string that resolves, the
per-node loop succeeds. -/
theorem node_names_go_all_ok (hostname : String)
    (apps : List (String × Application)) : ∀ (l : List PyVal),
    (∀ x ∈ l, ∃ s a, x = PyVal.pyStr s ∧ alookup apps s = some a) →
    ∃ found, node_names_go hostname apps l = .ok found
  | [], _ => ⟨[], rfl⟩
  | x :: rest, h => by
      obtain ⟨s, a, rfl, ha⟩ := h x (List.mem_cons_self _ _)
      obtain ⟨found, hrun⟩ := node_names_go_all_ok hostname apps rest
        (fun x hx => h x (List.mem_cons_of_mem _ hx))
      exact ⟨a :: found, by simp [node_names_go, ha, hrun, Bind.bind, Except.bind]⟩

/-- When a node's list is all strings and one of them does not resolve, the
per-node loop raises the unrecognised-application error naming the node and
the first unresolved name. -/
theorem node_names_go_miss (hostname : String)
    (apps : List (String × Application)) : ∀ (l : List PyVal),
    (∀ x ∈ l, x.isStr = true) →
    (∃ s, PyVal.pyStr s ∈ l ∧ alookup apps s = none) →
    ∃ s, PyVal.pyStr s ∈ l ∧ alookup apps s = none ∧
      node_names_go hostname apps l =
        .error (.configError (nodeUnrecognisedAppMsg hostname s))
  | [], _, hex => absurd hex (by simp)
  | x :: rest, hstr, hex => by
      have hx := hstr x (List.mem_cons_self _ _)
      cases x with
      | pyStr t =>
          cases ha : alookup apps t with
          | none =>
              exact ⟨t, List.mem_cons_self _ _, ha, by simp [node_names_go, ha]⟩
          | some a =>
              have hex' : ∃ s, PyVal.pyStr s ∈ rest ∧ alookup apps s = none := by
                obtain ⟨s, hs, hnone⟩ := hex
                rcases List.mem_cons.mp hs with heq | hmem
                · obtain rfl : s = t := by injection heq
                  rw [ha] at hnone
                  exact absurd hnone (by simp)
                · exact ⟨s, hmem, hnone⟩
              obtain ⟨s, hmem, hnone, hrun⟩ := node_names_go_miss hostname apps rest
                (fun x hx => hstr x (List.mem_cons_of_mem _ hx)) hex'
              exact ⟨s, List.mem_cons_of_mem _ hmem, hnone,
                by simp [node_names_go, ha, hrun, Bind.bind, Except.bind]⟩
      | pyInt n => exact absurd hx (by simp [PyVal.isStr])
      | pyList xs => exact absurd hx (by simp [PyVal.isStr])
      | pyDict d => exact absurd hx (by simp [PyVal.isStr])
      | pyNone => exact absurd hx (by simp [PyVal.isStr])

/-- Over the whole nodes mapping: all node values lists of strings, some
listed name unresolved — the loop raises the error naming a hostname and an
unresolved name listed under it. -/
theorem nodes_go_miss (apps : List (String × Application)) :
    ∀ (ns : List (String × PyVal)),
    (∀ e ∈ ns, ∃ l, e.2 = PyVal.pyList l ∧ ∀ x ∈ l, x.isStr = true) →
    (∃ e ∈ ns, ∃ l, e.2 = PyVal.pyList l ∧
      ∃ s, PyVal.pyStr s ∈ l ∧ alookup apps s = none) →
    ∃ hostname name,
      (∃ l, (hostname, PyVal.pyList l) ∈ ns ∧ PyVal.pyStr name ∈ l ∧
        alookup apps name = none) ∧
      nodes_go apps ns =
        .error (.configError (nodeUnrecognisedAppMsg hostname name))
  | [], _, hex => absurd hex (by simp)
  | (h0, v0) :: rest, hlists, hex => by
      obtain ⟨l0, hv0, hstr0⟩ := hlists (h0, v0) (List.mem_cons_self _ _)
      simp only at hv0
      subst hv0
      by_cases hc : ∃ s, PyVal.pyStr s ∈ l0 ∧ alookup apps s = none
      · obtain ⟨s, hmem, hnone, hrun⟩ := node_names_go_miss h0 apps l0 hstr0 hc
        refine ⟨h0, s, ⟨l0, List.mem_cons_self _ _, hmem, hnone⟩, ?_⟩
        simp [nodes_go, hrun, Bind.bind, Except.bind]
      · have hall : ∀ x ∈ l0, ∃ s a, x = PyVal.pyStr s ∧ alookup apps s = some a := by
          intro x hx
          have := hstr0 x hx
          cases x with
          | pyStr t =>
              cases ha : alookup apps t with
              | none => exact absurd ⟨t, hx, ha⟩ hc
              | some a => exact ⟨t, a, rfl, ha⟩
          | pyInt n => exact absurd this (by simp [PyVal.isStr])
          | pyList xs => exact absurd this (by simp [PyVal.isStr])
          | pyDict d => exact absurd this (by simp [PyVal.isStr])
          | pyNone => exact absurd this (by simp [PyVal.isStr])
        obtain ⟨found, hok⟩ := node_names_go_all_ok h0 apps l0 hall
        have hex' : ∃ e ∈ rest, ∃ l, e.2 = PyVal.pyList l ∧
            ∃ s, PyVal.pyStr s ∈ l ∧ alookup apps s = none := by
          obtain ⟨e, he, l, hel, s, hs, hnone⟩ := hex
          rcases List.mem_cons.mp he with rfl | hmem
          · simp only at hel
            obtain rfl : l0 = l := by injection hel
            exact absurd ⟨s, hs, hnone⟩ hc
          · exact ⟨e, hmem, l, hel, s, hs, hnone⟩
        obtain ⟨hostname, name, hw, hrun⟩ := nodes_go_miss apps rest
          (fun e he => hlists e (List.mem_cons_of_mem _ he)) hex'
        obtain ⟨l, hl, hml, hnone⟩ := hw
        refine ⟨hostname, name, ⟨l, List.mem_cons_of_mem _ hl, hml, hnone⟩, ?_⟩
        simp [nodes_go, hok, hrun, Bind.bind, Except.bind]

/-- C9: with the deployment mapping's `nodes` and `version` stanzas in
shape, a node listing an application name that does not resolve in the
fully validated application mapping fails with the configuration error
naming both that hostname and the unresolved name — no node set (hence no
`Deployment`) is produced. -/
theorem C9_deployment_unresolved_name (cfg : Dict)
    (ns : List (String × PyVal)) (apps : List (String × Application))
    (hnodes : alookup cfg "nodes" = some (.pyDict ns))
    (hver : alookup cfg "version" = some (.pyInt 1))
    (hlists : ∀ e ∈ ns, ∃ l, e.2 = PyVal.pyList l ∧ ∀ x ∈ l, x.isStr = true)
    (hmiss : ∃ e ∈ ns, ∃ l, e.2 = PyVal.pyList l ∧
      ∃ s, PyVal.pyStr s ∈ l ∧ alookup apps s = none) :
    ∃ hostname name,
      (∃ l, (hostname, PyVal.pyList l) ∈ ns ∧ PyVal.pyStr name ∈ l ∧
        alookup apps name = none) ∧
      deployment_from_configuration (.pyDict cfg) apps =
        .error (.configError (nodeUnrecognisedAppMsg hostname name)) := by
  obtain ⟨hostname, name, hw, hrun⟩ := nodes_go_miss apps ns hlists hmiss
  refine ⟨hostname, name, hw, ?_⟩
  simp [deployment_from_configuration, hnodes, hver, hrun, Except.map]

/-- Witness for C9: one node listing the unknown application `web` against
an empty application mapping. -/
theorem C9_deployment_unresolved_name_witness :
    ∃ hostname name,
      (∃ l, (hostname, PyVal.pyList l) ∈
          [("node1", PyVal.pyList [PyVal.pyStr "web"])] ∧
        PyVal.pyStr name ∈ l ∧
        alookup ([] : List (String × Application)) name = none) ∧
      deployment_from_configuration
        (.pyDict [("version", .pyInt 1),
                  ("nodes", .pyDict [("node1", .pyList [.pyStr "web"])])]) [] =
        .error (.configError (nodeUnrecognisedAppMsg hostname name)) :=
  C9_deployment_unresolved_name
    [("version", .pyInt 1), ("nodes", .pyDict [("node1", .pyList [.pyStr "web"])])]
    [("node1", .pyList [.pyStr "web"])] [] rfl rfl
    (by
      rintro e he
      obtain rfl := List.mem_singleton.mp he
      exact ⟨[.pyStr "web"], rfl, by decide⟩)
    ⟨("node1", .pyList [.pyStr "web"]), List.mem_singleton_self _,
      [.pyStr "web"], rfl, "web", List.mem_singleton_self _, rfl⟩

/-- Counterexample to C6: on a per-node configuration in valid fig format
the code's `current_from_configuration` parses it with the fig front end
and succeeds, while the spec's per-node native-dialect lenient parse fails
for want of an `applications` key — the per-node parse is not the native
parser for every input. -/
theorem C6_counterexample_fig_dispatch :
    current_from_configuration c6FigShapedCurrentCfg =
      .ok ⟨{⟨"node1", {⟨"web", ⟨"busybox", "latest"⟩, ∅, none, ∅, none⟩}⟩}⟩ ∧
    current_from_configuration_spec c6FigShapedCurrentCfg =
      .error (.configError
        "Application configuration has an error. Missing 'applications' key.") := by
  constructor
  · decide
  · rfl

/-- The node loops of the code and of the spec's sentence agree when no
node's configuration passes fig detection. -/
theorem current_nodes_go_eq_spec : ∀ (m : List (String × PyVal)),
    (∀ e ∈ m, ∃ d, e.2 = PyVal.pyDict d ∧ is_valid_format d = .ok false) →
    current_nodes_go m = current_nodes_go_spec m
  | [], _ => rfl
  | (h0, v) :: rest, h => by
      obtain ⟨d, hv, hivf⟩ := h (h0, v) (List.mem_cons_self _ _)
      simp only at hv
      subst hv
      have ih := current_nodes_go_eq_spec rest
        (fun e he => h e (List.mem_cons_of_mem _ he))
      simp only [current_nodes_go, current_nodes_go_spec,
        applications_from_configuration, hivf, ih, Bind.bind, Except.bind]
      simp

/-- C6 as the code has it: `current_from_configuration` applies the
native-dialect lenient parser per node exactly when the node's
configuration is a mapping that fails fig detection; for such inputs it
coincides with the spec's description (for fig-shaped inputs the fig front
end runs instead, see the counterexample). -/
theorem C6_current_equiv_native_when_not_fig (m : List (String × PyVal))
    (h : ∀ e ∈ m, ∃ d, e.2 = PyVal.pyDict d ∧ is_valid_format d = .ok false) :
    current_from_configuration (.pyDict m) =
      current_from_configuration_spec (.pyDict m) := by
  simp only [current_from_configuration, current_from_configuration_spec,
    current_nodes_go_eq_spec m h]

/-- Witness for C6: one node whose configuration is native-shaped (fig
detection returns false), on which the two sides agree. -/
theorem C6_current_equiv_native_when_not_fig_witness :
    current_from_configuration
      (.pyDict [("node1", .pyDict [("version", .pyInt 1),
                                   ("applications", .pyDict [])])]) =
    current_from_configuration_spec
      (.pyDict [("node1", .pyDict [("version", .pyInt 1),
                                   ("applications", .pyDict [])])]) :=
  C6_current_equiv_native_when_not_fig _
    (by
      rintro e he
      obtain rfl := List.mem_singleton.mp he
      exact ⟨_, rfl, rfl⟩)

/-- Looking up the key just written by Python's item assignment finds the
new value. -/
theorem alookup_dinsert_self : ∀ (d : Dict) (k : String) (v : PyVal),
    alookup (dinsert d k v) k = some v
  | [], k, v => by simp [dinsert, alookup]
  | (k0, v0) :: rest, k, v => by
      by_cases hk : k0 = k
      · simp [dinsert, hk, alookup]
      · simp [dinsert, hk, alookup, alookup_dinsert_self rest k v]

/-- Item assignment leaves every other key's lookup unchanged. -/
theorem alookup_dinsert_ne : ∀ (d : Dict) (k : String) (v : PyVal) (k' : String),
    k ≠ k' → alookup (dinsert d k v) k' = alookup d k'
  | [], k, v, k', hne => by simp [dinsert, alookup, hne]
  | (k0, v0) :: rest, k, v, k', hne => by
      by_cases hk : k0 = k
      · subst hk
        simp [dinsert, alookup, hne]
      · by_cases hk' : k0 = k'
        · subst hk'
          simp [dinsert, hk, alookup]
        · simp [dinsert, hk, alookup, hk', alookup_dinsert_ne rest k v k' hne]

/-- A successful per-application native parse leaves an empty residual
mapping: the one success exit returns the empty dictionary. -/
theorem nativeParseApp_ok_residual (lenient : Bool) (name : String)
    (c : PyVal) (p : Application × PyVal)
    (h : nativeParseApp lenient name c = .ok p) : p.2 = .pyDict [] := by
  cases c with
  | pyDict d =>
      simp only [nativeParseApp, Bind.bind, Except.bind] at h
      repeat' split at h
      all_goals first
        | (obtain rfl := Except.ok.inj h; rfl)
        | exact absurd h (by simp)
  | pyStr s => exact absurd h (by simp [nativeParseApp])
  | pyInt n => exact absurd h (by simp [nativeParseApp])
  | pyList xs => exact absurd h (by simp [nativeParseApp])
  | pyNone => exact absurd h (by simp [nativeParseApp])

/-- A successful native parse keeps the application names in order and
leaves every application's residual mapping empty. -/
theorem nativeParseApps_ok (lenient : Bool) : ∀ (l : List (String × PyVal))
    (res : List (String × Application × PyVal)),
    nativeParseApps lenient l = .ok res →
    res.map (fun r => r.1) = l.map Prod.fst ∧ ∀ r ∈ res, r.2.2 = PyVal.pyDict []
  | [], res, h => by
      simp only [nativeParseApps, Except.ok.injEq] at h
      subst h
      simp
  | (name, c) :: rest, res, h => by
      simp only [nativeParseApps, Bind.bind, Except.bind] at h
      cases hone : nativeParseApp lenient name c with
      | error e => rw [hone] at h; exact absurd h (by simp)
      | ok one =>
          rw [hone] at h
          cases hrest : nativeParseApps lenient rest with
          | error e => rw [hrest] at h; exact absurd h (by simp)
          | ok res' =>
              rw [hrest] at h
              simp only [Except.ok.injEq] at h
              subst h
              obtain ⟨hm, hall⟩ := nativeParseApps_ok lenient rest res' hrest
              refine ⟨by simp [hm], ?_⟩
              intro r hr
              rcases List.mem_cons.mp hr with rfl | hr
              · exact nativeParseApp_ok_residual lenient name c one hone
              · exact hall r hr

/-- An application whose mapping is already empty fails at once for want of
`image`, aborting the whole pass. -/
theorem nativeParseApps_cons_empty (lenient : Bool) (name : String)
    (rest : List (String × PyVal)) :
    nativeParseApps lenient ((name, PyVal.pyDict []) :: rest) =
      .error (.configError (nativeMissingValueMsg name "image")) := by
  have h0 : nativeParseApp lenient name (.pyDict []) =
      .error (.configError (nativeMissingValueMsg name "image")) := rfl
  simp [nativeParseApps, h0, Bind.bind, Except.bind]

/-- C10 as the code has it: the native front end consumes its input
destructively — after a successful parse the residual configuration maps
every application name to an empty mapping (all recognised keys were
popped), and when at least one application was parsed, parsing the residual
a second time fails with the missing-image error for the first
application instead of reproducing the first result. (With zero
applications the second parse reproduces the first result, see the
counterexample.) -/
theorem C10_native_parse_consumes_keys (lenient : Bool) (cfg : Dict)
    (apps : List (String × Application)) (residual : Dict)
    (h : applications_from_flocker_configuration lenient cfg = .ok (apps, residual)) :
    (∃ rs, alookup residual "applications" = some (.pyDict rs) ∧
      rs.map Prod.fst = apps.map Prod.fst ∧ ∀ e ∈ rs, e.2 = PyVal.pyDict []) ∧
    (∀ hd tl, apps = hd :: tl →
      applications_from_flocker_configuration lenient residual =
        .error (.configError (nativeMissingValueMsg hd.1 "image"))) := by
  unfold applications_from_flocker_configuration at h
  cases hA : alookup cfg "applications" with
  | none => rw [hA] at h; exact absurd h (by simp)
  | some appsv =>
      rw [hA] at h
      dsimp only at h
      cases hV : alookup cfg "version" with
      | none => rw [hV] at h; exact absurd h (by simp)
      | some ver =>
          rw [hV] at h
          dsimp only at h
          split at h
          · cases appsv with
            | pyDict appsD =>
                simp only [Bind.bind, Except.bind] at h
                cases hres : nativeParseApps lenient appsD with
                | error e => rw [hres] at h; exact absurd h (by simp)
                | ok res =>
                    rw [hres] at h
                    simp only [Except.ok.injEq] at h
                    have happs : apps = res.map (fun r => (r.1, r.2.1)) :=
                      (congrArg Prod.fst h).symm
                    have hresid : residual = dinsert cfg "applications"
                        (.pyDict (res.map (fun r => (r.1, r.2.2)))) :=
                      (congrArg Prod.snd h).symm
                    obtain ⟨hnames, hempty⟩ := nativeParseApps_ok lenient appsD res hres
                    subst hresid
                    constructor
                    · refine ⟨res.map (fun r => (r.1, r.2.2)),
                        alookup_dinsert_self cfg "applications" _, ?_, ?_⟩
                      · simp [happs]
                      · intro e he
                        simp only [List.mem_map] at he
                        obtain ⟨r, hr, rfl⟩ := he
                        exact hempty r hr
                    · intro hd tl hcons
                      cases res with
                      | nil => rw [happs] at hcons; exact absurd hcons (by simp)
                      | cons r0 res' =>
                          have hhd : hd = (r0.1, r0.2.1) := by
                            rw [happs] at hcons
                            simp only [List.map_cons, List.cons.injEq] at hcons
                            exact hcons.1.symm
                          have hr0 : r0.2.2 = PyVal.pyDict [] :=
                            hempty r0 (List.mem_cons_self _ _)
                          unfold applications_from_flocker_configuration
                          rw [alookup_dinsert_self]
                          rw [alookup_dinsert_ne cfg "applications" _ "version"
                            (by decide), hV]
                          simp only [List.map_cons, hr0]
                          rw [nativeParseApps_cons_empty]
                          simp [hhd, Bind.bind, Except.bind]
            | pyStr s => exact absurd h (by simp)
            | pyInt m => exact absurd h (by simp)
            | pyList xs => exact absurd h (by simp)
            | pyNone => exact absurd h (by simp)
          · exact absurd h (by simp)

/-- Counterexample to C10: with zero applications the parse touches no
per-application mapping, the residual equals the input, and parsing it a
second time reproduces the first (empty) result instead of failing. -/
theorem C10_counterexample_empty_applications :
    applications_from_flocker_configuration false c10EmptyCfg =
      .ok ([], c10EmptyCfg) ∧
    (applications_from_flocker_configuration false c10EmptyCfg).bind
      (fun r => applications_from_flocker_configuration false r.2) =
      .ok ([], c10EmptyCfg) :=
  ⟨rfl, rfl⟩

/-- Witness for C10: after parsing one concrete application the residual
maps `web` to an empty mapping and a second parse fails with the
missing-image error. -/
theorem C10_native_parse_consumes_keys_witness :
    (∃ rs, alookup c10Residual "applications" = some (.pyDict rs) ∧
      rs.map Prod.fst = c10Apps.map Prod.fst ∧ ∀ e ∈ rs, e.2 = PyVal.pyDict []) ∧
    (∀ hd tl, c10Apps = hd :: tl →
      applications_from_flocker_configuration false c10Residual =
        .error (.configError (nativeMissingValueMsg hd.1 "image"))) :=
  C10_native_parse_consumes_keys false c10OneAppCfg c10Apps c10Residual rfl

/-- Re-parsing the emitted mapping of one port gives the port back. -/
theorem parse_ports_item_toYaml (p : Port) : parse_ports_item (portToYaml p) = .ok p :=
  rfl

/-- Re-parsing the emitted ports list gives the ports back in order. -/
theorem parse_ports_list_toYaml : ∀ (l : List Port),
    parse_ports_list (l.map portToYaml) = .ok l
  | [] => rfl
  | p :: rest => by
      simp [parse_ports_list, parse_ports_item_toYaml,
        parse_ports_list_toYaml rest, Bind.bind, Except.bind]

/-- Re-parsing the emitted mapping of one link gives the link back. -/
theorem parse_link_item_toYaml (application_name : String) (l : Link) :
    parse_link_item application_name (linkToYaml l) = .ok l :=
  rfl

/-- Re-parsing the emitted links list gives the links back in order. -/
theorem parse_link_list_toYaml (application_name : String) : ∀ (l : List Link),
    parse_link_list application_name (l.map linkToYaml) = .ok l
  | [] => rfl
  | lk :: rest => by
      simp [parse_link_list, parse_link_item_toYaml,
        parse_link_list_toYaml application_name rest, Bind.bind, Except.bind]

/-- Re-parsing the emitted mapping of one application in lenient mode gives
the application back except for the placeholder image, the collapsed
mountpoint and the dropped environment; the residual mapping is empty. -/
theorem nativeParseApp_toYaml (a : Application) :
    nativeParseApp true a.name (applicationToYaml a) =
      .ok (⟨a.name, ⟨"unknown", "latest"⟩, a.ports,
            a.volume.map (fun _ => ⟨a.name, none⟩), a.links, none⟩,
           .pyDict []) := by
  obtain ⟨name, image, ports, volume, links, environment⟩ := a
  have himg : dockerImageFromString "unknown" =
      (⟨"unknown", "latest"⟩ : DockerImage) := rfl
  simp only [applicationToYaml]
  by_cases hl : links = ∅ <;> cases volume <;>
    simp_all [nativeParseApp, dpop, alookup, dremove, List.filter,
      parse_ports_configuration, parse_link_configuration,
      parse_environment_config, parse_volume_configuration,
      wrapNativeValueError, parse_ports_list_toYaml, parse_link_list_toYaml,
      parse_link_list, Bind.bind, Except.bind, sortedKeyList_toFinset,
      portsToList, linksToList, PyVal.truthy, Except.map, Pure.pure,
      Except.pure]

/-- Lookup distributes over concatenation: the first mapping wins. -/
theorem alookup_append {α : Type} : ∀ (l1 l2 : List (String × α)) (k : String),
    alookup (l1 ++ l2) k =
      match alookup l1 k with
      | some v => some v
      | none => alookup l2 k
  | [], l2, k => rfl
  | (k0, v0) :: rest, l2, k => by
      by_cases hk : k0 = k <;> simp [alookup, hk, alookup_append rest l2 k]

/-- Item assignment with a fresh key appends the entry. -/
theorem dinsert_fresh : ∀ (d : Dict) (k : String) (v : PyVal),
    alookup d k = none → dinsert d k v = d ++ [(k, v)]
  | [], k, v, _ => rfl
  | (k0, v0) :: rest, k, v, h => by
      by_cases hk : k0 = k
      · simp [alookup, hk] at h
      · simp only [dinsert, hk, if_false]
        rw [dinsert_fresh rest k v (by simpa [alookup, hk] using h)]
        simp

/-- With pairwise distinct application names, building the reverse
projection's result mapping by repeated item assignment is just mapping
each application to its emitted entry, in order. -/
theorem configToYamlApps_go : ∀ (apps : List Application) (acc : Dict),
    (∀ a ∈ apps, alookup acc a.name = none) →
    (apps.map Application.name).Nodup →
    List.foldl (fun result a => dinsert result a.name (applicationToYaml a)) acc apps =
      acc ++ apps.map (fun a => (a.name, applicationToYaml a))
  | [], acc, _, _ => by simp
  | a0 :: rest, acc, hfresh, hnodup => by
      rw [List.map_cons, List.nodup_cons] at hnodup
      have hfresh' : ∀ a ∈ rest,
          alookup (acc ++ [(a0.name, applicationToYaml a0)]) a.name = none := by
        intro a ha
        rw [alookup_append]
        rw [hfresh a (List.mem_cons_of_mem _ ha)]
        have hne : a0.name ≠ a.name := by
          intro he
          exact hnodup.1 (he ▸ List.mem_map_of_mem Application.name ha)
        simp [alookup, hne]
      simp only [List.foldl]
      rw [dinsert_fresh acc a0.name _ (hfresh a0 (List.mem_cons_self _ _))]
      rw [configToYamlApps_go rest (acc ++ [(a0.name, applicationToYaml a0)])
        hfresh' hnodup.2]
      simp

/-- Re-parsing all emitted applications in lenient mode: names kept in
order, ports and links exact, image the placeholder, mountpoint collapsed,
residuals empty. -/
theorem nativeParseApps_toYaml : ∀ (apps : List Application),
    nativeParseApps true (apps.map (fun a => (a.name, applicationToYaml a))) =
      .ok (apps.map (fun a =>
        (a.name, ⟨a.name, ⟨"unknown", "latest"⟩, a.ports,
          a.volume.map (fun _ => ⟨a.name, none⟩), a.links, none⟩, .pyDict [])))
  | [] => rfl
  | a :: rest => by
      simp [nativeParseApps, nativeParseApp_toYaml, nativeParseApps_toYaml rest,
        Bind.bind, Except.bind]

/-- C4 as the code has it: for every application list with pairwise
distinct names, serialising with `configuration_to_yaml` and re-parsing
with the lenient native parser yields applications whose ports and links
equal the originals exactly and whose volume presence is preserved, while
the re-parsed image is always the placeholder `unknown:latest` and the
re-parsed volume mountpoint is always undefined — so image identity and
mountpoint survive only when the original already held the placeholder
values (see the counterexample to the claim's "never"). -/
theorem C4_round_trip (apps : List Application)
    (h : (apps.map Application.name).Nodup) :
    ∃ residual,
      applications_from_flocker_configuration true (configuration_to_yaml apps) =
        .ok (apps.map (fun a =>
          (a.name, ⟨a.name, ⟨"unknown", "latest"⟩, a.ports,
            a.volume.map (fun _ => ⟨a.name, none⟩), a.links, none⟩)), residual) := by
  refine ⟨[("version", .pyInt 1),
           ("applications", .pyDict (apps.map (fun a => (a.name, PyVal.pyDict []))))], ?_⟩
  have hmap : configurationToYamlApps apps =
      apps.map (fun a => (a.name, applicationToYaml a)) := by
    have := configToYamlApps_go apps [] (by simp [alookup]) h
    simpa [configurationToYamlApps] using this
  simp only [applications_from_flocker_configuration, configuration_to_yaml,
    alookup, hmap, Bind.bind, Except.bind]
  simp only [String.reduceEq, reduceIte, if_true]
  rw [nativeParseApps_toYaml apps]
  simp [List.map_map, Function.comp, dinsert]

/-- Counterexample to C4: an application whose image already is the
placeholder `unknown:latest` survives the round trip unchanged — the
re-parsed image equals the original image identity, where the claim says it
never does. -/
theorem C4_counterexample_placeholder_image :
    (applications_from_flocker_configuration true
        (configuration_to_yaml [c4PlaceholderApp])).map Prod.fst =
      .ok [("web", c4PlaceholderApp)] := by
  decide

/-- Witness for C4: one concrete application round-trips with its ports and
links intact, its image replaced by the placeholder and its volume kept
with an undefined mountpoint. -/
theorem C4_round_trip_witness :
    ∃ residual,
      applications_from_flocker_configuration true
          (configuration_to_yaml [c4SampleApp]) =
        .ok ([c4SampleApp].map (fun a =>
          (a.name, ⟨a.name, ⟨"unknown", "latest"⟩, a.ports,
            a.volume.map (fun _ => ⟨a.name, none⟩), a.links, none⟩)), residual) :=
  C4_round_trip [c4SampleApp] (by decide)
